import Mathlib

/-!
Verification of the task-orchestration engine of tk-auto-save.

The definitions below are a shallow embedding of the Python sources:
  * `src/status_manager.py`  — the `StatusManager` class (task registry,
    download/upload queues, processed-set, stop flag and its operations);
  * `src/download_module.py` — `download_video` (resumable fetch);
  * `src/upload_module.py`   — `upload_to_server` (relay with duplicate policy).

Modelling conventions:
  * Python `dict` → association list `List (String × TaskRec)` preserving
    insertion order (replace-in-place on update, append on fresh key).
  * Python `set` → `List String` with guarded insertion (`set.add` is a no-op
    when the element is present, exactly as in CPython).
  * `collections.deque` → `List String` (append / appendleft / popleft /
    remove are `· ++ [x]`, `x :: ·`, tail, `List.erase`).
  * Statuses are kept as the raw strings the code compares against, since
    `dict.update(progress_data)` can store arbitrary status strings.
  * `last_updated` / `added_date` timestamps are not tracked (the code only
    writes them, never branches on them); percentage values are `Nat`.
  * Filesystem and network are oracles passed per call: a file system is
    `String → Option Nat` (path ↦ size when the path exists), matching the
    code's `os.path.exists` / `os.path.getsize` uses.
-/

/-- One task record, the value stored in `StatusManager.task_status`
(`status_manager.py`).  Fields mirror the dict keys the code reads/writes:
`status`, `title`, `url`, `added_date`, `rating`, `download_progress`,
`upload_progress`, `local_path`, `error_message`. -/
structure TaskRec where
  status : String
  title : String
  url : Option String
  addedDate : Option String
  rating : Option String
  downloadProgress : Nat
  uploadProgress : Nat
  localPath : Option String
  errorMessage : Option String
deriving DecidableEq, Repr

/-- The in-memory state of `StatusManager` (`status_manager.py`, `__init__`):
`task_status`, `download_queue`, `upload_queue`, `processed_ids`,
`stop_requested`. -/
structure Store where
  taskStatus : List (String × TaskRec)
  downloadQueue : List String
  uploadQueue : List String
  processedIds : List String
  stopRequested : Bool
deriving DecidableEq, Repr

/-- The fresh state produced by `StatusManager._reset_state`. -/
def initialStore : Store :=
  { taskStatus := [], downloadQueue := [], uploadQueue := [],
    processedIds := [], stopRequested := false }

/-- Dict lookup (`task_status.get(fc2_id)` / `fc2_id in task_status`). -/
def lookupTask : List (String × TaskRec) → String → Option TaskRec
  | [], _ => none
  | (k, v) :: rest, key => if k = key then some v else lookupTask rest key

/-- Dict write `task_status[fc2_id] = t` (or an in-place `.update` whose
result is `t`): replaces the value at an existing key keeping its position,
appends a fresh key at the end, as a CPython dict does. -/
def setTask : List (String × TaskRec) → String → TaskRec → List (String × TaskRec)
  | [], key, v => [(key, v)]
  | (k, w) :: rest, key, v =>
      if k = key then (key, v) :: rest else (k, w) :: setTask rest key v

/-- `deque.append` guarded by a membership test, the pattern
`if fc2_id not in queue: queue.append(fc2_id)` used throughout
`status_manager.py`. -/
def enqueue (q : List String) (id : String) : List String :=
  if id ∈ q then q else q ++ [id]

/-- `deque.appendleft` guarded by a membership test, the pattern
`if fc2_id not in queue: queue.appendleft(fc2_id)` used by the
resume/reset/scan paths. -/
def pushFront (q : List String) (id : String) : List String :=
  if id ∈ q then q else id :: q

/-- `set.add` for `processed_ids` (no-op when present). -/
def procAdd (p : List String) (id : String) : List String :=
  if id ∈ p then p else p ++ [id]

/-- Python truthiness of `task.get("local_path")`: `None` and `""` are falsy. -/
def localPathTruthy : Option String → Bool
  | none => false
  | some s => s ≠ ""

/-- `os.path.exists(path) and os.path.getsize(path) > 0`, the existing-file
test of `add_download_task` (status_manager.py lines 154 and 195). -/
def fileOk (fs : String → Option Nat) (path : String) : Bool :=
  match fs path with
  | some n => n > 0
  | none => false

/-- The character filter of the safe-filename logic
(`c.isalnum() or c in (' ', '.', '_', '-')`, status_manager.py line 115;
the model restricts `isalnum` to ASCII alphanumerics). -/
def isSafeChar (c : Char) : Bool :=
  c.isAlphanum || c = ' ' || c = '.' || c = '_' || c = '-'

/-- Leading run of ASCII digits of a character list. -/
def digitRun (cs : List Char) : List Char :=
  cs.takeWhile Char.isDigit

/-- Literal-prefix test on character lists. -/
def litMatch : List Char → List Char → Bool
  | [], _ => true
  | _ :: _, [] => false
  | p :: ps, c :: cs => p = c && litMatch ps cs

/-- ASCII lower-casing of one character (the model of Python `str.lower`
is restricted to ASCII, like `isalnum` above). -/
def lowerChar (c : Char) : Char :=
  if 'A' ≤ c && c ≤ 'Z' then Char.ofNat (c.toNat + 32) else c

/-- Python `s.lower()` (ASCII). -/
def strLower (s : String) : String :=
  String.mk (s.data.map lowerChar)

/-- Python `s.endswith(post)` on code points. -/
def strEndsWith (s post : String) : Bool :=
  litMatch post.data.reverse s.data.reverse

/-- Python `s[:-n]` (drop the last `n` code points). -/
def strDropRight (s : String) (n : Nat) : String :=
  String.mk (s.data.take (s.data.length - n))

/-- Python `s[:n]` (first `n` code points). -/
def strTake (s : String) (n : Nat) : String :=
  String.mk (s.data.take n)

/-- Python `s[-n:]` (last `n` code points). -/
def strTakeRight (s : String) (n : Nat) : String :=
  String.mk (s.data.drop (s.data.length - n))

/-- Decimal value of a digit string (the `int(...)` of a regex group). -/
def digitsToNat (cs : List Char) : Nat :=
  cs.foldl (fun n c => n * 10 + (c.toNat - 48)) 0

/-- Filename guessed from a title (status_manager.py lines 114-117 and
download_module.py lines 249-251): sanitize, then append `.mp4` unless the
lower-cased name already ends with it. -/
def safeFilename (title : String) : String :=
  let s := String.mk (title.data.map (fun c => if isSafeChar c then c else '_'))
  if strEndsWith (strLower s) ".mp4" then s else s ++ ".mp4"

/-- `re.search(r'FC2-PPV-(\d+)', s)` returning `group(1)`: scan left to
right for the literal `FC2-PPV-` followed by at least one digit and return
the maximal digit run after it (status_manager.py lines 121 and 652). -/
def fc2Search : List Char → Option (List Char)
  | [] => none
  | c :: rest =>
      if litMatch "FC2-PPV-".data (c :: rest) then
        let after := (c :: rest).drop 8
        let ds := digitRun after
        if ds.isEmpty then fc2Search rest else some ds
      else
        fc2Search rest

/-- `_extract_fc2_id_from_filename` (status_manager.py lines 648-655). -/
def extract_fc2_id_from_filename (filename : String) : Option String :=
  (fc2Search filename.data).map String.mk

/-- The upload-folder naming rule of `add_download_task`
(status_manager.py lines 119-147): extract the digits after `FC2-PPV-`,
take the first three, zero the last of them; with the documented fallbacks. -/
def uploadFolderName (fc2Id : String) : String :=
  match fc2Search fc2Id.data with
  | some numericId =>
      if numericId.length ≥ 3 then
        let suffix3 := numericId.take 3
        "FC2-PPV-" ++ String.mk (suffix3.dropLast ++ ['0'])
      else if numericId.length > 0 then
        "FC2-PPV-" ++ String.mk (numericId.dropLast ++ ['0'])
      else
        "FC2-PPV-0"
  | none =>
      if fc2Id.length > 0 then
        "FC2-PPV-" ++ String.mk (fc2Id.data.dropLast ++ ['0'])
      else
        "FC2-PPV-0"

/-- The `video_info` dict handed to `add_download_task` by the discovery
side (`fc2_id`, `title`, `url`, `added_date_str`, `rating`). -/
structure VideoInfo where
  fc2Id : Option String
  title : Option String
  url : Option String
  addedDateStr : Option String
  rating : Option String
deriving DecidableEq, Repr

/-- A `progress_data` dict passed to the progress-update operations: the
keys the store branches on or copies (`status`, `percentage`, `message`,
`local_path`).  `none` = key absent. -/
structure ProgressData where
  status : Option String
  percentage : Option Nat
  message : Option String
  localPath : Option String
deriving DecidableEq, Repr

/-- `current_task.update(progress_data)` followed by
`current_task["download_progress"] = progress_data.get("percentage", 0)`
(status_manager.py lines 332-334). -/
def mergeDl (t : TaskRec) (pd : ProgressData) : TaskRec :=
  { t with
    status := pd.status.getD t.status,
    localPath := match pd.localPath with
      | some p => some p
      | none => t.localPath,
    downloadProgress := pd.percentage.getD 0 }

/-- `current_task.update(progress_data)` followed by
`current_task["upload_progress"] = progress_data.get("percentage", 0)`
(status_manager.py lines 440-442). -/
def mergeUl (t : TaskRec) (pd : ProgressData) : TaskRec :=
  { t with
    status := pd.status.getD t.status,
    localPath := match pd.localPath with
      | some p => some p
      | none => t.localPath,
    uploadProgress := pd.percentage.getD 0 }

/-- Status of a task in a store (as an `Option`, `none` when unregistered). -/
def statusOf (s : Store) (id : String) : Option String :=
  (lookupTask s.taskStatus id).map TaskRec.status

/-- The already-fetched fast path of `add_download_task`
(status_manager.py lines 154-191): mark `completed`, point `local_path` at
the upload destination, drop the id from the processed-set, append to the
upload queue if absent. -/
def addFastPath (s : Store) (fc2Id title : String) (info : VideoInfo)
    (upload_path : String) : Store :=
  let base : TaskRec :=
    match lookupTask s.taskStatus fc2Id with
    | some t => t
    | none =>
        { status := "", title := title, url := info.url,
          addedDate := info.addedDateStr, rating := info.rating,
          downloadProgress := 0, uploadProgress := 0,
          localPath := none, errorMessage := none }
  let t := { base with status := "completed", downloadProgress := 100,
                       localPath := some upload_path }
  { s with taskStatus := setTask s.taskStatus fc2Id t,
           processedIds := s.processedIds.erase fc2Id,
           uploadQueue := enqueue s.uploadQueue fc2Id }

/-- The create-completed branch of the local-file path of
`add_download_task` (status_manager.py lines 213-242): a whole fresh record
marked `completed` pointing at the existing downloads file. -/
def addLocalCompleted (s : Store) (fc2Id title : String) (info : VideoInfo)
    (local_downloads_path : String) : Store :=
  let t : TaskRec :=
    { status := "completed", title := title, url := info.url,
      addedDate := info.addedDateStr, rating := info.rating,
      downloadProgress := 100, uploadProgress := 0,
      localPath := some local_downloads_path, errorMessage := none }
  { s with taskStatus := setTask s.taskStatus fc2Id t,
           processedIds := s.processedIds.erase fc2Id,
           uploadQueue := enqueue s.uploadQueue fc2Id }

/-- The local-downloads branch of `add_download_task`
(status_manager.py lines 193-246).  `some s'` = the call returns `s'`
there; `none` = control falls through to the final section. -/
def addLocalBranch (s : Store) (fc2Id title : String) (info : VideoInfo)
    (fs : String → Option Nat) (safe_filename : String) : Option Store :=
  let local_downloads_path := "downloads/" ++ safe_filename
  if fileOk fs local_downloads_path then
    if extract_fc2_id_from_filename safe_filename = some fc2Id then
      match lookupTask s.taskStatus fc2Id with
      | some t =>
          if t.status ∈ ["completed", "pending_upload", "uploading",
                         "skipped_upload"] then
            some s           -- line 201: already handled, return unchanged
          else if t.status ∈ ["pending_download", "downloading", "paused",
                              "error", "failed_download",
                              "failed_upload"] then
            none             -- line 206: pass, fall through
          else
            some (addLocalCompleted s fc2Id title info local_downloads_path)
      | none =>
          some (addLocalCompleted s fc2Id title info local_downloads_path)
    else
      none                   -- line 244: id mismatch, fall through
  else
    none

/-- The final section of `add_download_task`
(status_manager.py lines 249-282): (re)create the record as
`pending_download` and enqueue, unless the task is already
pending/downloading. -/
def addFinalSection (s : Store) (fc2Id title : String)
    (info : VideoInfo) : Store :=
  let proceed :=
    match lookupTask s.taskStatus fc2Id with
    | none => true
    | some t => ¬ (t.status ∈ ["pending_download", "downloading"])
  if proceed then
    let t : TaskRec :=
      { status := "pending_download", title := title, url := info.url,
        addedDate := info.addedDateStr, rating := info.rating,
        downloadProgress := 0, uploadProgress := 0,
        localPath := none, errorMessage := none }
    { s with taskStatus := setTask s.taskStatus fc2Id t,
             processedIds := s.processedIds.erase fc2Id,
             downloadQueue := enqueue s.downloadQueue fc2Id }
  else
    s

/-- `StatusManager.add_download_task` (status_manager.py lines 103-282).
`fs` is the filesystem at call time. -/
def add_download_task (s : Store) (info : VideoInfo)
    (fs : String → Option Nat) : Store :=
  match info.fc2Id with
  | none => s
  | some fc2Id =>
      if fc2Id = "" then s
      else
        let title := info.title.getD fc2Id
        let safe_filename := safeFilename title
        let upload_path :=
          "uploads/" ++ uploadFolderName fc2Id ++ "/" ++ safe_filename
        if fileOk fs upload_path then
          addFastPath s fc2Id title info upload_path
        else
          match addLocalBranch s fc2Id title info fs safe_filename with
          | some s' => s'
          | none => addFinalSection s fc2Id title info

/-- `StatusManager.get_next_download_task` (status_manager.py lines
285-322): state effect and returned task. -/
def get_next_download_task (s : Store) :
    Store × Option (String × TaskRec) :=
  if s.stopRequested then (s, none)
  else
    match s.downloadQueue with
    | [] => (s, none)
    | fc2Id :: rest =>
        let s1 := { s with downloadQueue := rest }
        match lookupTask s1.taskStatus fc2Id with
        | some t =>
            let t1 := { t with status := "downloading",
                               downloadProgress := 0, errorMessage := none }
            ({ s1 with taskStatus := setTask s1.taskStatus fc2Id t1 },
             some (fc2Id, t1))
        | none => (s1, none)

/-- `StatusManager.update_download_progress` (status_manager.py lines
325-374). -/
def update_download_progress (s : Store) (fc2Id : String)
    (pd : ProgressData) : Store :=
  match lookupTask s.taskStatus fc2Id with
  | none => s
  | some t =>
      let t1 := mergeDl t pd
      if pd.status = some "finished" then
        if fc2Id ∈ s.uploadQueue then
          { s with taskStatus := setTask s.taskStatus fc2Id t1 }
        else if localPathTruthy t1.localPath then
          let t2 := { t1 with status := "pending_upload" }
          { s with taskStatus := setTask s.taskStatus fc2Id t2,
                   uploadQueue := s.uploadQueue ++ [fc2Id] }
        else
          let t2 := { t1 with status := "error",
                              errorMessage :=
                                some "ダウンロード完了後ローカルパス不明" }
          { s with taskStatus := setTask s.taskStatus fc2Id t2 }
      else if pd.status = some "error" ∨ pd.status = some "failed_download" then
        { s with taskStatus := setTask s.taskStatus fc2Id t1 }
      else if pd.status = some "skipped" then
        { s with taskStatus := setTask s.taskStatus fc2Id t1,
                 processedIds := procAdd s.processedIds fc2Id }
      else if pd.status = some "paused" then
        { s with taskStatus := setTask s.taskStatus fc2Id
                                 { t1 with status := "paused" } }
      else
        { s with taskStatus := setTask s.taskStatus fc2Id t1 }

/-- `StatusManager.set_download_local_path` (status_manager.py lines
377-390). -/
def set_download_local_path (s : Store) (fc2Id path : String) : Store :=
  match lookupTask s.taskStatus fc2Id with
  | none => s
  | some t =>
      { s with taskStatus := setTask s.taskStatus fc2Id
                               { t with localPath := some path } }

/-- `StatusManager.get_next_upload_task` (status_manager.py lines
393-430). -/
def get_next_upload_task (s : Store) :
    Store × Option (String × TaskRec) :=
  if s.stopRequested then (s, none)
  else
    match s.uploadQueue with
    | [] => (s, none)
    | fc2Id :: rest =>
        let s1 := { s with uploadQueue := rest }
        match lookupTask s1.taskStatus fc2Id with
        | some t =>
            let t1 := { t with status := "uploading",
                               uploadProgress := 0, errorMessage := none }
            ({ s1 with taskStatus := setTask s1.taskStatus fc2Id t1 },
             some (fc2Id, t1))
        | none => (s1, none)

/-- `StatusManager.update_upload_progress` (status_manager.py lines
433-468). -/
def update_upload_progress (s : Store) (fc2Id : String)
    (pd : ProgressData) : Store :=
  match lookupTask s.taskStatus fc2Id with
  | none => s
  | some t =>
      let t1 := mergeUl t pd
      if pd.status = some "finished" ∨ pd.status = some "skipped" then
        let t2 := { t1 with status :=
                      if pd.status = some "finished" then "completed"
                      else "skipped_upload" }
        { s with taskStatus := setTask s.taskStatus fc2Id t2,
                 processedIds := procAdd s.processedIds fc2Id }
      else if pd.status = some "error" ∨ pd.status = some "failed_upload" then
        { s with taskStatus := setTask s.taskStatus fc2Id t1 }
      else if pd.status = some "paused" then
        { s with taskStatus := setTask s.taskStatus fc2Id
                                 { t1 with status := "paused" } }
      else
        { s with taskStatus := setTask s.taskStatus fc2Id t1 }

/-- `StatusManager.request_stop` (status_manager.py lines 528-535). -/
def request_stop (s : Store) : Store :=
  { s with stopRequested := true }

/-- `StatusManager.clear_stop_request` (status_manager.py lines 538-545). -/
def clear_stop_request (s : Store) : Store :=
  { s with stopRequested := false }

/-- One iteration of the loop of `resume_paused_tasks`
(status_manager.py lines 559-592). -/
def resumeStep (s : Store) (fc2Id : String) : Store :=
  match lookupTask s.taskStatus fc2Id with
  | none => s
  | some t =>
      if t.status = "paused" then
        if localPathTruthy t.localPath then
          { s with taskStatus := setTask s.taskStatus fc2Id
                                   { t with status := "pending_upload" },
                   uploadQueue := pushFront s.uploadQueue fc2Id }
        else
          { s with taskStatus := setTask s.taskStatus fc2Id
                                   { t with status := "pending_download" },
                   downloadQueue := pushFront s.downloadQueue fc2Id }
      else
        s

/-- `StatusManager.resume_paused_tasks` (status_manager.py lines 548-600):
fold the loop body over the snapshot of registry keys. -/
def resume_paused_tasks (s : Store) : Store :=
  (s.taskStatus.map Prod.fst).foldl resumeStep s

/-- One iteration of the reset loop of `reset_failed_tasks`
(status_manager.py lines 619-637). -/
def resetStep (s : Store) (fc2Id : String) : Store :=
  match lookupTask s.taskStatus fc2Id with
  | none => s
  | some t =>
      let t1 := { t with status := "pending_download",
                         downloadProgress := 0, uploadProgress := 0,
                         localPath := none, errorMessage := none }
      { s with taskStatus := setTask s.taskStatus fc2Id t1,
               downloadQueue := pushFront s.downloadQueue fc2Id }

/-- `StatusManager.reset_failed_tasks` (status_manager.py lines 603-646):
collect the failed ids, drop them from the processed-set, then reset each
and push it to the front of the download queue. -/
def reset_failed_tasks (s : Store) : Store :=
  let failed_statuses := ["error", "failed_download", "failed_upload"]
  let ids_to_reset :=
    (s.taskStatus.filter (fun kv => kv.2.status ∈ failed_statuses)).map
      Prod.fst
  let s1 := { s with processedIds :=
                ids_to_reset.foldl (fun p id => p.erase id) s.processedIds }
  ids_to_reset.foldl resetStep s1

/-- `StatusManager.reset_state_async` (status_manager.py lines 93-100). -/
def reset_state_async (_s : Store) : Store := initialStore

/-- `StatusManager.delete_local_file` (status_manager.py lines 854-888).
`ex` is the filesystem-existence oracle, `removeOk` tells whether
`os.remove` succeeds (its failure is caught and recorded). -/
def delete_local_file (s : Store) (fc2Id : String) (ex : String → Bool)
    (removeOk : Bool) : Store :=
  match lookupTask s.taskStatus fc2Id with
  | none => s
  | some t =>
      if localPathTruthy t.localPath then
        let p := t.localPath.getD ""
        if ex p then
          if removeOk then
            { s with taskStatus := setTask s.taskStatus fc2Id
                                     { t with localPath := none } }
          else
            { s with taskStatus := setTask s.taskStatus fc2Id
                       { t with errorMessage := some "ファイル削除失敗" } }
        else
          { s with taskStatus := setTask s.taskStatus fc2Id
                                   { t with localPath := none } }
      else
        s

/-- State threaded through the directory scan of
`check_and_resume_downloads`: the store plus the full paths of the files
the scan has removed with `os.remove`. -/
structure ScanState where
  store : Store
  deleted : List String
deriving DecidableEq, Repr

/-- `os.path.exists` as seen during the scan: the start-of-scan oracle `ex`
minus the files the scan itself has already deleted. -/
def scanExists (ex : String → Bool) (st : ScanState) (p : String) : Bool :=
  ex p && ¬ (p ∈ st.deleted)

/-- One iteration of the completed-file (`.mp4`) loop of
`check_and_resume_downloads` (status_manager.py lines 688-740). -/
def scanMp4Step (dir : String) (st : ScanState) (filename : String) :
    ScanState :=
  if strEndsWith (strLower filename) ".mp4" then
    let file_path := dir ++ "/" ++ filename
    match extract_fc2_id_from_filename filename with
    | some fc2Id =>
        let task := lookupTask st.store.taskStatus fc2Id
        let handled : Bool :=
          match task with
          | some t => decide (t.status ∈ ["completed", "pending_upload",
                                          "uploading", "skipped_upload"])
          | none => false
        if handled then st
        else
          let base : TaskRec :=
            match task with
            | some t => t
            | none =>
                { status := "", title := filename, url := none,
                  addedDate := none, rating := none,
                  downloadProgress := 100, uploadProgress := 0,
                  localPath := none, errorMessage := none }
          let t1 := { base with status := "completed",
                                downloadProgress := 100,
                                localPath := some file_path }
          { st with store :=
              { st.store with
                  taskStatus := setTask st.store.taskStatus fc2Id t1,
                  processedIds := st.store.processedIds.erase fc2Id,
                  uploadQueue := enqueue st.store.uploadQueue fc2Id } }
    | none => st
  else st

/-- One iteration of the partial-file (`.part`) loop of
`check_and_resume_downloads` (status_manager.py lines 743-797). -/
def scanPartStep (dir : String) (st : ScanState) (filename : String) :
    ScanState :=
  if strEndsWith (strLower filename) ".part" then
    let file_path := dir ++ "/" ++ filename
    let original_filename := strDropRight filename 5
    match extract_fc2_id_from_filename original_filename with
    | some fc2Id =>
        match lookupTask st.store.taskStatus fc2Id with
        | some t =>
            if t.status ∈ ["completed", "skipped_upload"] then
              { st with deleted := st.deleted ++ [file_path] }
            else if t.status ∈ ["pending_download", "downloading", "paused",
                                "error", "failed_download"] then
              let t1 := { t with status := "pending_download",
                                 localPath := some file_path }
              { st with store :=
                  { st.store with
                      taskStatus := setTask st.store.taskStatus fc2Id t1,
                      downloadQueue :=
                        pushFront st.store.downloadQueue fc2Id } }
            else st
        | none => st
    | none =>
        { st with deleted := st.deleted ++ [file_path] }
  else st

/-- One iteration of the missing-file loop of `check_and_resume_downloads`
(status_manager.py lines 801-842). -/
def scanMissingStep (ex : String → Bool) (st : ScanState) (fc2Id : String) :
    ScanState :=
  match lookupTask st.store.taskStatus fc2Id with
  | none => st
  | some t =>
      if t.status ∈ ["pending_download", "downloading", "pending_upload",
                     "uploading", "paused"] then
        let present :=
          match t.localPath with
          | some p => p ≠ "" && scanExists ex st p
          | none => false
        if present then st
        else if t.status ∈ ["pending_download", "downloading", "paused"] then
          let t1 := { t with status := "pending_download",
                             downloadProgress := 0, uploadProgress := 0,
                             localPath := none,
                             errorMessage :=
                               some "ファイルが見つからないためリセット" }
          { st with store :=
              { st.store with
                  taskStatus := setTask st.store.taskStatus fc2Id t1,
                  downloadQueue := pushFront st.store.downloadQueue fc2Id } }
        else if t.status ∈ ["pending_upload", "uploading"] then
          let t1 := { t with status := "error",
                             errorMessage :=
                               some "アップロード対象ファイルが見つかりません" }
          { st with store :=
              { st.store with
                  taskStatus := setTask st.store.taskStatus fc2Id t1,
                  uploadQueue := st.store.uploadQueue.erase fc2Id } }
        else st
      else st

/-- `StatusManager.check_and_resume_downloads` (status_manager.py lines
658-851).  `dirOk` is `os.path.isdir(download_dir)` combined with the
`os.listdir` success, `files` the plain files of the directory, `ex` the
existence oracle for the rest of the filesystem at scan start. -/
def check_and_resume_downloads (s : Store) (dir : String)
    (files : List String) (ex : String → Bool) (dirOk : Bool) : ScanState :=
  if dirOk then
    let st0 : ScanState := { store := s, deleted := [] }
    let st1 := files.foldl (scanMp4Step dir) st0
    let st2 := files.foldl (scanPartStep dir) st1
    let ids := st2.store.taskStatus.map Prod.fst
    ids.foldl (scanMissingStep ex) st2
  else
    { store := s, deleted := [] }

/-- Inputs of one `download_video` call (download_module.py lines 65-235):
the size of a pre-existing `<output>.part` (none = absent), whether the
output directory exists or is created successfully, the HTTP status code,
the `content-length` header (as a parsed number) and the raw
`content-range` header, the streamed chunk sizes in order, whether a
transport/write exception interrupts the stream after a given number of
chunks, and a pre-existing file at the final output path. -/
structure DlInput where
  partSize : Option Nat
  dirOk : Bool
  statusCode : Nat
  contentLength : Option Nat
  contentRange : Option String
  chunks : List Nat
  interruptAfter : Option Nat
  finalSize0 : Option Nat
deriving DecidableEq, Repr

/-- Result of one `download_video` call: the returned boolean and the sizes
of the `.part` file and of the final output file afterwards. -/
structure DlResult where
  ok : Bool
  partFile : Option Nat
  finalFile : Option Nat
deriving DecidableEq, Repr

/-- `re.search(r'/(\d+)$', content_range)` returning `int(group(1))`
(download_module.py lines 123-125): the trailing digit run, when it is
nonempty and directly preceded by a slash. -/
def parseContentRangeTotal (s : String) : Option Nat :=
  let rev := s.data.reverse
  let ds := rev.takeWhile Char.isDigit
  if ds.isEmpty then none
  else
    match rev.drop ds.length with
    | '/' :: _ => some (digitsToNat ds.reverse)
    | _ => none

/-- The total-size computation of `download_video`
(download_module.py lines 117-143). -/
def computedTotal (downloaded0 : Nat) (contentRange : Option String)
    (contentLength : Option Nat) : Nat :=
  match contentRange with
  | some cr =>
      if cr = "" then
        match contentLength with
        | some cl => if downloaded0 > 0 then cl + downloaded0 else cl
        | none => 0
      else
        match parseContentRangeTotal cr with
        | some t => t
        | none =>
            match contentLength with
            | some cl => cl + downloaded0
            | none => 0
  | none =>
      match contentLength with
      | some cl => if downloaded0 > 0 then cl + downloaded0 else cl
      | none => 0

/-- Bytes appended by the chunk loop (download_module.py lines 159-163):
chunks are written in order, an empty chunk breaks the loop. -/
def sumUntilZero : List Nat → Nat
  | [] => 0
  | c :: rest => if c = 0 then 0 else c + sumUntilZero rest

/-- `download_video` (download_module.py lines 65-235) as a function from
its call inputs to its observable outcome.  The `.part` file is opened in
append mode, the stream is written to it, then — still before the
size-mismatch check of lines 198-207 — `os.replace` renames it to the
final name (line 184); a transport/write exception leaves the `.part` in
place and returns failure (lines 188-195 and 220-235). -/
def download_video (inp : DlInput) : DlResult :=
  let downloaded0 := inp.partSize.getD 0
  if ¬ inp.dirOk then
    { ok := false, partFile := inp.partSize, finalFile := inp.finalSize0 }
  else if ¬ (inp.statusCode = 200 ∨ inp.statusCode = 206) then
    { ok := false, partFile := inp.partSize, finalFile := inp.finalSize0 }
  else
    let total := computedTotal downloaded0 inp.contentRange inp.contentLength
    match inp.interruptAfter with
    | some k =>
        let written := downloaded0 + sumUntilZero (inp.chunks.take k)
        { ok := false, partFile := some written, finalFile := inp.finalSize0 }
    | none =>
        let written := downloaded0 + sumUntilZero inp.chunks
        if total > 0 ∧ written ≠ total then
          { ok := false, partFile := none, finalFile := some written }
        else
          { ok := true, partFile := none, finalFile := some written }

/-- `re.search(r'FC2-PPV-(\d{3})', title)` returning `group(0)`
(upload_module.py lines 41-44): the literal `FC2-PPV-` followed by three
digits, scanning left to right. -/
def fc2Search3 : List Char → Option (List Char)
  | [] => none
  | c :: rest =>
      if litMatch "FC2-PPV-".data (c :: rest) then
        let after := (c :: rest).drop 8
        let ds := (after.take 3).takeWhile Char.isDigit
        if ds.length = 3 then some ("FC2-PPV-".data ++ ds)
        else fc2Search3 rest
      else
        fc2Search3 rest

/-- `extract_fc2_prefix` of upload_module.py (lines 41-44), named
`extract_fc2_head` here. -/
def extract_fc2_head (title : String) : Option String :=
  (fc2Search3 title.data).map String.mk

/-- `os.path.basename` for slash-separated paths
(upload_module.py line 300). -/
def pathBasename (p : String) : String :=
  String.mk ((p.data.reverse.takeWhile (fun c => c ≠ '/')).reverse)

/-- Inputs of one `upload_to_server` call (upload_module.py lines
252-338): local-file existence and size, whether the SMB directory
check/creation raises, the remote store contents (path ↦ object size), and
whether the chunked SMB transfer raises. -/
structure UpInput where
  localExists : Bool
  localSize : Nat
  dirOk : Bool
  remote : String → Option Nat
  transferOk : Bool

/-- Result of one `upload_to_server` call: the returned boolean, whether a
`skipped` progress event was reported, and the remote path and byte count
written by `_upload_file_smb` (none = no transfer). -/
structure UpResult where
  ok : Bool
  skipped : Bool
  stored : Option (String × Nat)
deriving DecidableEq, Repr

/-- The chunked write loop of `_upload_file_smb`
(upload_module.py lines 183-197): 8192-byte chunks from offset 0 until the
whole file is written.  The first argument is fuel bounding the number of
iterations (each iteration writes at least one byte, so fuel = file size
is enough); the result is the number of bytes stored. -/
def storeFileLoop : Nat → Nat → Nat
  | 0, _ => 0
  | _ + 1, 0 => 0
  | fuel + 1, r + 1 =>
      let chunk := min 8192 (r + 1)
      chunk + storeFileLoop fuel (r + 1 - chunk)

/-- The SMB base path `FILEHUB_BASE_PATH` (upload_module.py line 31,
default `/Adult`). -/
def smb_base_path : String := "/Adult"

/-- `upload_to_server` (upload_module.py lines 252-338): missing or
`.part`-suffixed local files are skipped as success; otherwise the
`FC2-PPV-XXX` prefix is extracted from the title and its third digit
zeroed (lines 279-286); a failed extraction is an error; the remote store
is queried at `base/prefix/basename` and the duplicate policy of lines
311-326 applied; exceptions from the SMB steps are caught and yield
failure (line 333). -/
def upload_to_server (local_file_path video_title : String)
    (inp : UpInput) : UpResult :=
  if local_file_path = "" ∨ ¬ inp.localExists then
    { ok := true, skipped := true, stored := none }
  else if strEndsWith local_file_path ".part" then
    { ok := true, skipped := true, stored := none }
  else
    match extract_fc2_head video_title with
    | none => { ok := false, skipped := false, stored := none }
    | some prefix0 =>
        let number_part := strTakeRight prefix0 3
        let adjusted := strDropRight prefix0 3 ++ (strTake number_part 2 ++ "0")
        let target_dir := smb_base_path ++ "/" ++ adjusted
        let local_filename := pathBasename local_file_path
        let remote_file_path := target_dir ++ "/" ++ local_filename
        if ¬ inp.dirOk then
          { ok := false, skipped := false, stored := none }
        else
          match inp.remote remote_file_path with
          | some remote_file_size =>
              if remote_file_size ≥ inp.localSize then
                { ok := true, skipped := true, stored := none }
              else if inp.transferOk then
                { ok := true, skipped := false,
                  stored := some (remote_file_path,
                                  storeFileLoop inp.localSize inp.localSize) }
              else
                { ok := false, skipped := false, stored := none }
          | none =>
              if inp.transferOk then
                { ok := true, skipped := false,
                  stored := some (remote_file_path,
                                  storeFileLoop inp.localSize inp.localSize) }
              else
                { ok := false, skipped := false, stored := none }

/-- One atomic operation of the store: each constructor is one public
`StatusManager` method applied with arbitrary arguments and an arbitrary
filesystem oracle. -/
inductive Step : Store → Store → Prop where
  | add (s : Store) (info : VideoInfo) (fs : String → Option Nat) :
      Step s (add_download_task s info fs)
  | nextDl (s : Store) : Step s (get_next_download_task s).1
  | updDl (s : Store) (id : String) (pd : ProgressData) :
      Step s (update_download_progress s id pd)
  | setPath (s : Store) (id p : String) :
      Step s (set_download_local_path s id p)
  | nextUl (s : Store) : Step s (get_next_upload_task s).1
  | updUl (s : Store) (id : String) (pd : ProgressData) :
      Step s (update_upload_progress s id pd)
  | stop (s : Store) : Step s (request_stop s)
  | clearStop (s : Store) : Step s (clear_stop_request s)
  | resume (s : Store) : Step s (resume_paused_tasks s)
  | resetFailed (s : Store) : Step s (reset_failed_tasks s)
  | scan (s : Store) (dir : String) (files : List String)
      (ex : String → Bool) (dirOk : Bool) :
      Step s (check_and_resume_downloads s dir files ex dirOk).store
  | resetAll (s : Store) : Step s (reset_state_async s)
  | delFile (s : Store) (id : String) (ex : String → Bool) (removeOk : Bool) :
      Step s (delete_local_file s id ex removeOk)

/-- A store state reachable from the freshly initialised manager by a
sequence of operations. -/
def Reachable (s : Store) : Prop :=
  Relation.ReflTransGen Step initialStore s

/-- Property of a single transition `s → s'`: an id freshly appended to the
download queue ends with status `pending_download`; one freshly appended
to the upload queue ends with status `pending_upload` or `completed`. -/
def FreshQueueStatus (s s' : Store) : Prop :=
  (∀ id, id ∉ s.downloadQueue → id ∈ s'.downloadQueue →
     statusOf s' id = some "pending_download") ∧
  (∀ id, id ∉ s.uploadQueue → id ∈ s'.uploadQueue →
     statusOf s' id = some "pending_upload" ∨ statusOf s' id = some "completed")

/-- Fold invariant for `resume_paused_tasks` relative to the starting
state `s`: ids the fold has newly queued carry the matching pending
status. -/
def ResumeInv (s st : Store) : Prop :=
  (∀ id, id ∉ s.downloadQueue → id ∈ st.downloadQueue →
     statusOf st id = some "pending_download") ∧
  (∀ id, id ∉ s.uploadQueue → id ∈ st.uploadQueue →
     statusOf st id = some "pending_upload")

/-- Fold invariant for the reset loop of `reset_failed_tasks`. -/
def ResetInvQ (s st : Store) : Prop :=
  (∀ id, id ∉ s.downloadQueue → id ∈ st.downloadQueue →
     statusOf st id = some "pending_download") ∧
  st.uploadQueue = s.uploadQueue

/-- Fold invariant for the scan phases relative to the pre-scan state:
freshly download-queued ids are `pending_download`, freshly upload-queued
ids are `completed`. -/
def ScanFreshInv (s : Store) (st : ScanState) : Prop :=
  (∀ id, id ∉ s.downloadQueue → id ∈ st.store.downloadQueue →
     statusOf st.store id = some "pending_download") ∧
  (∀ id, id ∉ s.uploadQueue → id ∈ st.store.uploadQueue →
     statusOf st.store id = some "completed")

/-- Strengthened invariant for the `.mp4` phase, which never touches the
download queue. -/
def ScanFreshInv1 (s : Store) (st : ScanState) : Prop :=
  st.store.downloadQueue = s.downloadQueue ∧
  (∀ id, id ∉ s.uploadQueue → id ∈ st.store.uploadQueue →
     statusOf st.store id = some "completed")

/-- Both queues are duplicate-free. -/
def QueuesNodup (s : Store) : Prop :=
  s.downloadQueue.Nodup ∧ s.uploadQueue.Nodup

/-- Property of a single transition: an id freshly inserted into the
processed-set carries one of the statuses `completed`, `skipped_upload`
or `skipped`. -/
def ProcFresh (s s' : Store) : Prop :=
  ∀ id, id ∉ s.processedIds → id ∈ s'.processedIds →
    statusOf s' id = some "completed" ∨
    statusOf s' id = some "skipped_upload" ∨
    statusOf s' id = some "skipped"

/-- A filesystem with no files. -/
def fsEmpty : String → Option Nat := fun _ => none

/-- A filesystem where every path is a 5-byte file. -/
def fsEverywhere : String → Option Nat := fun _ => some 5

/-- An existence oracle with no files. -/
def exNone : String → Bool := fun _ => false

/-- A sample discovery submission. -/
def infoX : VideoInfo :=
  { fc2Id := some "FC2-PPV-1234567", title := none,
    url := some "http://example/v", addedDateStr := none, rating := none }

/-- Its task id. -/
def idX : String := "FC2-PPV-1234567"

/-- Submitting `infoX` when the upload destination already holds the file:
the already-fetched fast path of `add_download_task` runs. -/
def c1State : Store := add_download_task initialStore infoX fsEverywhere

/-- Submitting `infoX` on an empty filesystem: the ordinary path runs. -/
def chain1 : Store := add_download_task initialStore infoX fsEmpty

/-- Submitting `infoX` again when the upload destination now holds the
file: the fast path runs while the id is still download-queued. -/
def c2State : Store := add_download_task chain1 infoX fsEverywhere

/-- A download-side `skipped` progress report. -/
def pdSkipped : ProgressData :=
  { status := some "skipped", percentage := none, message := none,
    localPath := none }

/-- The store after a `skipped` report for a pending download. -/
def c3State : Store := update_download_progress chain1 idX pdSkipped

/-- A `finished` report carrying the local path. -/
def pdFinishedWithPath : ProgressData :=
  { status := some "finished", percentage := some 100, message := none,
    localPath := some "downloads/FC2-PPV-1234567.mp4" }

/-- A `finished` report without a local path. -/
def pdFinishedBare : ProgressData :=
  { status := some "finished", percentage := some 100, message := none,
    localPath := none }

/-- The happy-path lifecycle of `infoX`: submit, check out the download,
report it finished, check out the upload, report it finished. -/
def chain2 : Store := (get_next_download_task chain1).1

def chain3 : Store := update_download_progress chain2 idX pdFinishedWithPath

def chain4 : Store := (get_next_upload_task chain3).1

def chain5 : Store := update_upload_progress chain4 idX pdFinishedBare

/-- Re-submitting the completed, processed task on an empty filesystem. -/
def c4After : Store := add_download_task chain5 infoX fsEmpty

/-- The registry record of `idX` in `c1State`. -/
def c1TaskRec : TaskRec :=
  { status := "completed", title := "FC2-PPV-1234567",
    url := some "http://example/v", addedDate := none, rating := none,
    downloadProgress := 100, uploadProgress := 0,
    localPath := some "uploads/FC2-PPV-120/FC2-PPV-1234567.mp4",
    errorMessage := none }

/-- A `finished` report arriving while the id already sits in the upload
queue (as `c1State` has it). -/
def c8After : Store := update_download_progress c1State idX pdFinishedBare

/-- A one-task registry holding a checked-out download. -/
def w8TaskRec : TaskRec :=
  { status := "downloading", title := "FC2-PPV-1234567", url := none,
    addedDate := none, rating := none, downloadProgress := 0,
    uploadProgress := 0, localPath := none, errorMessage := none }

def w8Store : Store :=
  { taskStatus := [(idX, w8TaskRec)], downloadQueue := [], uploadQueue := [],
    processedIds := [], stopRequested := false }

/-- A resumed fetch whose stream ends 50 bytes short of the expected 110. -/
def c6Input : DlInput :=
  { partSize := some 10, dirOk := true, statusCode := 206,
    contentLength := some 100, contentRange := none, chunks := [50],
    interruptAfter := none, finalSize0 := none }

/-- An orphaned partial file whose id is derivable from its name. -/
def c7File : String := "FC2-PPV-7654321.mp4.part"

/-- Scanning a directory holding only that orphan with an empty registry. -/
def c7Scan : ScanState :=
  check_and_resume_downloads initialStore "downloads" [c7File] exNone true

/-- A remote store holding a 50-byte object where the relay of the local
`.part` file would place it. -/
def c9Remote : String → Option Nat :=
  fun p => if p = "/Adult/FC2-PPV-120/FC2-PPV-1234567 x.mp4.part" then some 50
           else none

def c9Input : UpInput :=
  { localExists := true, localSize := 100, dirOk := true,
    remote := c9Remote, transferOk := true }

/-- A remote store holding a 50-byte object where the relay of the plain
`.mp4` local file would place it. -/
def w9Remote : String → Option Nat :=
  fun p => if p = "/Adult/FC2-PPV-120/FC2-PPV-1234567 x.mp4" then some 50
           else none

def w9Input : UpInput :=
  { localExists := true, localSize := 100, dirOk := true,
    remote := w9Remote, transferOk := true }

/-- A submission with no `fc2_id` field. -/
def infoNone : VideoInfo :=
  { fc2Id := none, title := none, url := none, addedDateStr := none,
    rating := none }

theorem lookup_set_self (m : List (String × TaskRec)) (k : String)
    (v : TaskRec) : lookupTask (setTask m k v) k = some v := by
  induction m with
  | nil => simp [setTask, lookupTask]
  | cons kv rest ih =>
      obtain ⟨k0, w⟩ := kv
      by_cases h : k0 = k
      · simp [setTask, h, lookupTask]
      · simp [setTask, h, lookupTask, ih]

theorem lookup_set_ne (m : List (String × TaskRec)) (k : String)
    (v : TaskRec) (k' : String) (h : k' ≠ k) :
    lookupTask (setTask m k v) k' = lookupTask m k' := by
  induction m with
  | nil =>
      simp [setTask, lookupTask, show ¬ (k = k') from fun hh => h hh.symm]
  | cons kv rest ih =>
      obtain ⟨k0, w⟩ := kv
      by_cases h0 : k0 = k
      · subst h0
        simp [setTask, lookupTask, show ¬ (k0 = k') from fun hh => h hh.symm]
      · by_cases h1 : k0 = k'
        · simp [setTask, h0, lookupTask, h1, h]
        · simp [setTask, h0, lookupTask, h1, ih]

theorem mem_enqueue {q : List String} {id id' : String} :
    id' ∈ enqueue q id ↔ id' ∈ q ∨ id' = id := by
  unfold enqueue
  split
  · constructor
    · exact fun h => Or.inl h
    · rintro (h | rfl)
      · exact h
      · assumption
  · simp

theorem mem_pushFront {q : List String} {id id' : String} :
    id' ∈ pushFront q id ↔ id' ∈ q ∨ id' = id := by
  unfold pushFront
  split
  · constructor
    · exact fun h => Or.inl h
    · rintro (h | rfl)
      · exact h
      · assumption
  · simp [or_comm]

theorem nodup_enqueue {q : List String} {id : String} (h : q.Nodup) :
    (enqueue q id).Nodup := by
  unfold enqueue
  split
  · exact h
  · next hmem =>
      refine List.Nodup.append h (List.nodup_singleton id) ?_
      intro a ha hb
      rw [List.mem_singleton] at hb
      exact hmem (hb ▸ ha)

theorem nodup_pushFront {q : List String} {id : String} (h : q.Nodup) :
    (pushFront q id).Nodup := by
  unfold pushFront
  split
  · exact h
  · next hmem => exact List.Nodup.cons hmem h

theorem mem_procAdd {p : List String} {id id' : String} :
    id' ∈ procAdd p id ↔ id' ∈ p ∨ id' = id := by
  unfold procAdd
  split
  · constructor
    · exact fun h => Or.inl h
    · rintro (h | rfl)
      · exact h
      · assumption
  · simp

theorem foldl_inv {α σ : Type} (P : σ → Prop) (f : σ → α → σ)
    (hstep : ∀ s a, P s → P (f s a)) :
    ∀ (l : List α) (s : σ), P s → P (l.foldl f s) := by
  intro l
  induction l with
  | nil => intro s hs; simpa using hs
  | cons a rest ih => intro s hs; exact ih (f s a) (hstep s a hs)

theorem freshOfSubset {s s' : Store}
    (hd : ∀ id, id ∈ s'.downloadQueue → id ∈ s.downloadQueue)
    (hu : ∀ id, id ∈ s'.uploadQueue → id ∈ s.uploadQueue) :
    FreshQueueStatus s s' :=
  ⟨fun id hn hm => absurd (hd id hm) hn,
   fun id hn hm => absurd (hu id hm) hn⟩

theorem fresh_refl (s : Store) : FreshQueueStatus s s :=
  freshOfSubset (fun _ h => h) (fun _ h => h)

theorem fresh_addFastPath (s : Store) (fc2Id title : String)
    (info : VideoInfo) (upload_path : String) :
    FreshQueueStatus s (addFastPath s fc2Id title info upload_path) := by
  constructor
  · intro id hn hm
    exact absurd hm hn
  · intro id hn hm
    have hm' : id ∈ s.uploadQueue ∨ id = fc2Id := by
      have : id ∈ enqueue s.uploadQueue fc2Id := hm
      exact mem_enqueue.mp this
    rcases hm' with h | rfl
    · exact absurd h hn
    · right
      simp [addFastPath, statusOf, lookup_set_self]

theorem fresh_addLocalCompleted (s : Store) (fc2Id title : String)
    (info : VideoInfo) (local_downloads_path : String) :
    FreshQueueStatus s
      (addLocalCompleted s fc2Id title info local_downloads_path) := by
  constructor
  · intro id hn hm
    exact absurd hm hn
  · intro id hn hm
    have hm' : id ∈ s.uploadQueue ∨ id = fc2Id := by
      have : id ∈ enqueue s.uploadQueue fc2Id := hm
      exact mem_enqueue.mp this
    rcases hm' with h | rfl
    · exact absurd h hn
    · right
      simp [addLocalCompleted, statusOf, lookup_set_self]

theorem fresh_addFinalSection (s : Store) (fc2Id title : String)
    (info : VideoInfo) :
    FreshQueueStatus s (addFinalSection s fc2Id title info) := by
  unfold addFinalSection
  dsimp only
  split
  · constructor
    · intro id hn hm
      have hm' : id ∈ s.downloadQueue ∨ id = fc2Id := by
        have : id ∈ enqueue s.downloadQueue fc2Id := hm
        exact mem_enqueue.mp this
      rcases hm' with h | rfl
      · exact absurd h hn
      · simp [statusOf, lookup_set_self]
    · intro id hn hm
      exact absurd hm hn
  · exact fresh_refl s

theorem addLocalBranch_cases (s : Store) (fc2Id title : String)
    (info : VideoInfo) (fs : String → Option Nat) (safe_filename : String) :
    addLocalBranch s fc2Id title info fs safe_filename = none ∨
    addLocalBranch s fc2Id title info fs safe_filename = some s ∨
    addLocalBranch s fc2Id title info fs safe_filename =
      some (addLocalCompleted s fc2Id title info
              ("downloads/" ++ safe_filename)) := by
  unfold addLocalBranch
  dsimp only
  split
  · split
    · split
      · split
        · right; left; rfl
        · split
          · left; rfl
          · right; right; rfl
      · right; right; rfl
    · left; rfl
  · left; rfl

theorem fresh_add (s : Store) (info : VideoInfo)
    (fs : String → Option Nat) :
    FreshQueueStatus s (add_download_task s info fs) := by
  unfold add_download_task
  cases info.fc2Id with
  | none => exact fresh_refl s
  | some fc2Id =>
      by_cases h0 : fc2Id = ""
      · simp only [h0]
        simpa using fresh_refl s
      · simp only [h0, if_false]
        split
        · exact fresh_addFastPath _ _ _ _ _
        · rcases addLocalBranch_cases s fc2Id (info.title.getD fc2Id) info fs
              (safeFilename (info.title.getD fc2Id)) with h | h | h <;> rw [h]
          · exact fresh_addFinalSection _ _ _ _
          · exact fresh_refl s
          · exact fresh_addLocalCompleted _ _ _ _ _

theorem fresh_nextDl (s : Store) :
    FreshQueueStatus s (get_next_download_task s).1 := by
  unfold get_next_download_task
  split
  · exact fresh_refl s
  · split
    · exact fresh_refl s
    · next fc2Id rest heq =>
        dsimp only
        split
        · refine freshOfSubset ?_ ?_
          · intro id hm
            rw [heq]
            exact List.mem_cons_of_mem fc2Id hm
          · intro id hm
            exact hm
        · refine freshOfSubset ?_ ?_
          · intro id hm
            rw [heq]
            exact List.mem_cons_of_mem fc2Id hm
          · intro id hm
            exact hm

theorem fresh_nextUl (s : Store) :
    FreshQueueStatus s (get_next_upload_task s).1 := by
  unfold get_next_upload_task
  split
  · exact fresh_refl s
  · split
    · exact fresh_refl s
    · next fc2Id rest heq =>
        dsimp only
        split
        · refine freshOfSubset ?_ ?_
          · intro id hm
            exact hm
          · intro id hm
            rw [heq]
            exact List.mem_cons_of_mem fc2Id hm
        · refine freshOfSubset ?_ ?_
          · intro id hm
            exact hm
          · intro id hm
            rw [heq]
            exact List.mem_cons_of_mem fc2Id hm

theorem fresh_updDl (s : Store) (id0 : String) (pd : ProgressData) :
    FreshQueueStatus s (update_download_progress s id0 pd) := by
  unfold update_download_progress
  cases hl : lookupTask s.taskStatus id0 with
  | none => exact fresh_refl s
  | some t =>
      dsimp only
      split
      · split
        · exact freshOfSubset (fun _ h => h) (fun _ h => h)
        · split
          · constructor
            · intro id hn hm
              exact absurd hm hn
            · intro id hn hm
              have hm' : id ∈ s.uploadQueue ∨ id = id0 := by
                have : id ∈ s.uploadQueue ++ [id0] := hm
                simpa using this
              rcases hm' with h | rfl
              · exact absurd h hn
              · left
                simp [statusOf, lookup_set_self]
          · exact freshOfSubset (fun _ h => h) (fun _ h => h)
      · split
        · exact freshOfSubset (fun _ h => h) (fun _ h => h)
        · split
          · exact freshOfSubset (fun _ h => h) (fun _ h => h)
          · split
            · exact freshOfSubset (fun _ h => h) (fun _ h => h)
            · exact freshOfSubset (fun _ h => h) (fun _ h => h)

theorem fresh_updUl (s : Store) (id0 : String) (pd : ProgressData) :
    FreshQueueStatus s (update_upload_progress s id0 pd) := by
  unfold update_upload_progress
  cases hl : lookupTask s.taskStatus id0 with
  | none => exact fresh_refl s
  | some t =>
      dsimp only
      split
      · exact freshOfSubset (fun _ h => h) (fun _ h => h)
      · split
        · exact freshOfSubset (fun _ h => h) (fun _ h => h)
        · split
          · exact freshOfSubset (fun _ h => h) (fun _ h => h)
          · exact freshOfSubset (fun _ h => h) (fun _ h => h)

theorem fresh_setPath (s : Store) (id0 p : String) :
    FreshQueueStatus s (set_download_local_path s id0 p) := by
  unfold set_download_local_path
  cases lookupTask s.taskStatus id0 with
  | none => exact fresh_refl s
  | some t => exact freshOfSubset (fun _ h => h) (fun _ h => h)

theorem fresh_stop (s : Store) : FreshQueueStatus s (request_stop s) :=
  freshOfSubset (fun _ h => h) (fun _ h => h)

theorem fresh_clearStop (s : Store) :
    FreshQueueStatus s (clear_stop_request s) :=
  freshOfSubset (fun _ h => h) (fun _ h => h)

theorem fresh_resetAll (s : Store) :
    FreshQueueStatus s (reset_state_async s) :=
  freshOfSubset (fun _ h => by simp [reset_state_async, initialStore] at h)
    (fun _ h => by simp [reset_state_async, initialStore] at h)

theorem fresh_delFile (s : Store) (id0 : String) (ex : String → Bool)
    (removeOk : Bool) :
    FreshQueueStatus s (delete_local_file s id0 ex removeOk) := by
  unfold delete_local_file
  cases lookupTask s.taskStatus id0 with
  | none => exact fresh_refl s
  | some t =>
      dsimp only
      split
      · split
        · split
          · exact freshOfSubset (fun _ h => h) (fun _ h => h)
          · exact freshOfSubset (fun _ h => h) (fun _ h => h)
        · exact freshOfSubset (fun _ h => h) (fun _ h => h)
      · exact fresh_refl s

theorem resumeStep_inv (s st : Store) (fc2Id : String)
    (h : ResumeInv s st) : ResumeInv s (resumeStep st fc2Id) := by
  unfold resumeStep
  cases hl : lookupTask st.taskStatus fc2Id with
  | none => exact h
  | some t =>
      dsimp only
      split
      · next hp =>
        split
        · constructor
          · intro id hn hm
            have h1 := h.1 id hn hm
            have hne : id ≠ fc2Id := by
              intro he
              subst he
              simp [statusOf, hl] at h1
              rw [hp] at h1
              exact absurd h1 (by decide)
            simp only [statusOf]
            rw [lookup_set_ne _ _ _ _ hne]
            exact h1
          · intro id hn hm
            have hm' : id ∈ st.uploadQueue ∨ id = fc2Id := mem_pushFront.mp hm
            rcases hm' with hmem | rfl
            · have h2 := h.2 id hn hmem
              by_cases hne : id = fc2Id
              · subst hne
                simp [statusOf, hl] at h2
                rw [hp] at h2
                exact absurd h2 (by decide)
              · simp only [statusOf]
                rw [lookup_set_ne _ _ _ _ hne]
                exact h2
            · simp [statusOf, lookup_set_self]
        · constructor
          · intro id hn hm
            have hm' : id ∈ st.downloadQueue ∨ id = fc2Id := mem_pushFront.mp hm
            rcases hm' with hmem | rfl
            · have h1 := h.1 id hn hmem
              by_cases hne : id = fc2Id
              · subst hne
                simp [statusOf, hl] at h1
                rw [hp] at h1
                exact absurd h1 (by decide)
              · simp only [statusOf]
                rw [lookup_set_ne _ _ _ _ hne]
                exact h1
            · simp [statusOf, lookup_set_self]
          · intro id hn hm
            have h2 := h.2 id hn hm
            have hne : id ≠ fc2Id := by
              intro he
              subst he
              simp [statusOf, hl] at h2
              rw [hp] at h2
              exact absurd h2 (by decide)
            simp only [statusOf]
            rw [lookup_set_ne _ _ _ _ hne]
            exact h2
      · exact h

theorem fresh_resume (s : Store) :
    FreshQueueStatus s (resume_paused_tasks s) := by
  have hinv : ResumeInv s (resume_paused_tasks s) := by
    unfold resume_paused_tasks
    refine foldl_inv (ResumeInv s) resumeStep
      (fun st a hst => resumeStep_inv s st a hst) _ s ?_
    exact ⟨fun id hn hm => absurd hm hn, fun id hn hm => absurd hm hn⟩
  exact ⟨hinv.1, fun id hn hm => Or.inl (hinv.2 id hn hm)⟩

theorem resetStep_inv (s st : Store) (fc2Id : String)
    (h : ResetInvQ s st) : ResetInvQ s (resetStep st fc2Id) := by
  unfold resetStep
  cases hl : lookupTask st.taskStatus fc2Id with
  | none => exact h
  | some t =>
      dsimp only
      constructor
      · intro id hn hm
        have hm' : id ∈ st.downloadQueue ∨ id = fc2Id := mem_pushFront.mp hm
        by_cases hne : id = fc2Id
        · subst hne
          simp [statusOf, lookup_set_self]
        · rcases hm' with hmem | he
          · have h1 := h.1 id hn hmem
            simp only [statusOf]
            rw [lookup_set_ne _ _ _ _ hne]
            exact h1
          · exact absurd he hne
      · exact h.2

theorem fresh_resetFailed (s : Store) :
    FreshQueueStatus s (reset_failed_tasks s) := by
  have hinv : ResetInvQ s (reset_failed_tasks s) := by
    unfold reset_failed_tasks
    refine foldl_inv (ResetInvQ s) resetStep
      (fun st a hst => resetStep_inv s st a hst) _ _ ?_
    exact ⟨fun id hn hm => absurd hm hn, rfl⟩
  refine ⟨hinv.1, fun id hn hm => ?_⟩
  rw [hinv.2] at hm
  exact absurd hm hn

theorem scanMp4Step_inv (s : Store) (dir : String) (st : ScanState)
    (f : String) (h : ScanFreshInv1 s st) :
    ScanFreshInv1 s (scanMp4Step dir st f) := by
  unfold scanMp4Step
  split
  · dsimp only
    split
    · next fc2Id heq =>
        split
        · exact h
        · refine ⟨h.1, ?_⟩
          intro id hn hm
          have hm' : id ∈ st.store.uploadQueue ∨ id = fc2Id := mem_enqueue.mp hm
          by_cases hne : id = fc2Id
          · subst hne
            simp [statusOf, lookup_set_self]
          · rcases hm' with hmem | he
            · have h2 := h.2 id hn hmem
              simp only [statusOf]
              rw [lookup_set_ne _ _ _ _ hne]
              exact h2
            · exact absurd he hne
    · exact h
  · exact h

theorem scanPartStep_inv (s : Store) (dir : String) (st : ScanState)
    (f : String) (h : ScanFreshInv s st) :
    ScanFreshInv s (scanPartStep dir st f) := by
  unfold scanPartStep
  split
  · dsimp only
    split
    · next fc2Id heq =>
        split
        · next t heq2 =>
            split
            · exact h
            · split
              · next hp =>
                  constructor
                  · intro id hn hm
                    have hm' : id ∈ st.store.downloadQueue ∨ id = fc2Id :=
                      mem_pushFront.mp hm
                    by_cases hne : id = fc2Id
                    · subst hne
                      simp [statusOf, lookup_set_self]
                    · rcases hm' with hmem | he
                      · have h1 := h.1 id hn hmem
                        simp only [statusOf]
                        rw [lookup_set_ne _ _ _ _ hne]
                        exact h1
                      · exact absurd he hne
                  · intro id hn hm
                    have h2 := h.2 id hn hm
                    have hne : id ≠ fc2Id := by
                      intro he
                      subst he
                      simp [statusOf, heq2] at h2
                      rw [h2] at hp
                      simp at hp
                    simp only [statusOf]
                    rw [lookup_set_ne _ _ _ _ hne]
                    exact h2
              · exact h
        · exact h
    · exact h
  · exact h

theorem scanMissingStep_inv (s : Store) (ex : String → Bool)
    (st : ScanState) (fc2Id : String) (h : ScanFreshInv s st) :
    ScanFreshInv s (scanMissingStep ex st fc2Id) := by
  unfold scanMissingStep
  split
  · exact h
  · next t heq2 =>
      dsimp only
      split
      · split
        · exact h
        · split
          · next hp =>
              constructor
              · intro id hn hm
                have hm' : id ∈ st.store.downloadQueue ∨ id = fc2Id :=
                  mem_pushFront.mp hm
                by_cases hne : id = fc2Id
                · subst hne
                  simp [statusOf, lookup_set_self]
                · rcases hm' with hmem | he
                  · have h1 := h.1 id hn hmem
                    simp only [statusOf]
                    rw [lookup_set_ne _ _ _ _ hne]
                    exact h1
                  · exact absurd he hne
              · intro id hn hm
                have h2 := h.2 id hn hm
                have hne : id ≠ fc2Id := by
                  intro he
                  subst he
                  simp [statusOf, heq2] at h2
                  rw [h2] at hp
                  simp at hp
                simp only [statusOf]
                rw [lookup_set_ne _ _ _ _ hne]
                exact h2
          · split
            · next hp2 =>
                constructor
                · intro id hn hm
                  have h1 := h.1 id hn hm
                  have hne : id ≠ fc2Id := by
                    intro he
                    subst he
                    simp [statusOf, heq2] at h1
                    rw [h1] at hp2
                    simp at hp2
                  simp only [statusOf]
                  rw [lookup_set_ne _ _ _ _ hne]
                  exact h1
                · intro id hn hm
                  have hmem : id ∈ st.store.uploadQueue :=
                    List.mem_of_mem_erase hm
                  have h2 := h.2 id hn hmem
                  have hne : id ≠ fc2Id := by
                    intro he
                    subst he
                    simp [statusOf, heq2] at h2
                    rw [h2] at hp2
                    simp at hp2
                  simp only [statusOf]
                  rw [lookup_set_ne _ _ _ _ hne]
                  exact h2
            · exact h
      · exact h

theorem fresh_scan (s : Store) (dir : String) (files : List String)
    (ex : String → Bool) (dirOk : Bool) :
    FreshQueueStatus s
      (check_and_resume_downloads s dir files ex dirOk).store := by
  unfold check_and_resume_downloads
  split
  · dsimp only
    have h1 : ScanFreshInv1 s
        (files.foldl (scanMp4Step dir) { store := s, deleted := [] }) := by
      refine foldl_inv (ScanFreshInv1 s) (scanMp4Step dir)
        (fun st a hst => scanMp4Step_inv s dir st a hst) _ _ ?_
      exact ⟨rfl, fun id hn hm => absurd hm hn⟩
    have h2 : ScanFreshInv s
        (files.foldl (scanMp4Step dir) { store := s, deleted := [] }) := by
      constructor
      · intro id hn hm
        rw [h1.1] at hm
        exact absurd hm hn
      · exact h1.2
    have h3 : ScanFreshInv s
        (files.foldl (scanPartStep dir)
          (files.foldl (scanMp4Step dir) { store := s, deleted := [] })) := by
      refine foldl_inv (ScanFreshInv s) (scanPartStep dir)
        (fun st a hst => scanPartStep_inv s dir st a hst) _ _ h2
    have h4 : ScanFreshInv s
        (((files.foldl (scanPartStep dir)
             (files.foldl (scanMp4Step dir)
               { store := s, deleted := [] })).store.taskStatus.map
                 Prod.fst).foldl (scanMissingStep ex)
           (files.foldl (scanPartStep dir)
             (files.foldl (scanMp4Step dir) { store := s, deleted := [] }))) :=
      foldl_inv (ScanFreshInv s) (scanMissingStep ex)
        (fun st a hst => scanMissingStep_inv s ex st a hst) _ _ h3
    exact ⟨h4.1, fun id hn hm => Or.inr (h4.2 id hn hm)⟩
  · exact fresh_refl s

theorem nodup_append_singleton {q : List String} {id : String}
    (hn : id ∉ q) (h : q.Nodup) : (q ++ [id]).Nodup := by
  refine List.Nodup.append h (List.nodup_singleton id) ?_
  intro a ha hb
  rw [List.mem_singleton] at hb
  exact hn (hb ▸ ha)

theorem nodup_addFastPath (s : Store) (fc2Id title : String)
    (info : VideoInfo) (upload_path : String) (h : QueuesNodup s) :
    QueuesNodup (addFastPath s fc2Id title info upload_path) :=
  ⟨h.1, nodup_enqueue h.2⟩

theorem nodup_addLocalCompleted (s : Store) (fc2Id title : String)
    (info : VideoInfo) (local_downloads_path : String) (h : QueuesNodup s) :
    QueuesNodup
      (addLocalCompleted s fc2Id title info local_downloads_path) :=
  ⟨h.1, nodup_enqueue h.2⟩

theorem nodup_addFinalSection (s : Store) (fc2Id title : String)
    (info : VideoInfo) (h : QueuesNodup s) :
    QueuesNodup (addFinalSection s fc2Id title info) := by
  unfold addFinalSection
  dsimp only
  split
  · exact ⟨nodup_enqueue h.1, h.2⟩
  · exact h

theorem nodup_add (s : Store) (info : VideoInfo) (fs : String → Option Nat)
    (h : QueuesNodup s) : QueuesNodup (add_download_task s info fs) := by
  unfold add_download_task
  cases info.fc2Id with
  | none => exact h
  | some fc2Id =>
      by_cases h0 : fc2Id = ""
      · simp only [h0]
        simpa using h
      · simp only [h0, if_false]
        split
        · exact nodup_addFastPath _ _ _ _ _ h
        · rcases addLocalBranch_cases s fc2Id (info.title.getD fc2Id) info fs
              (safeFilename (info.title.getD fc2Id)) with hb | hb | hb <;>
            rw [hb]
          · exact nodup_addFinalSection _ _ _ _ h
          · exact h
          · exact nodup_addLocalCompleted _ _ _ _ _ h

theorem nodup_nextDl (s : Store) (h : QueuesNodup s) :
    QueuesNodup (get_next_download_task s).1 := by
  unfold get_next_download_task
  split
  · exact h
  · split
    · exact h
    · next fc2Id rest heq =>
        have hrest : rest.Nodup := by
          have := h.1
          rw [heq] at this
          exact this.of_cons
        dsimp only
        split
        · exact ⟨hrest, h.2⟩
        · exact ⟨hrest, h.2⟩

theorem nodup_nextUl (s : Store) (h : QueuesNodup s) :
    QueuesNodup (get_next_upload_task s).1 := by
  unfold get_next_upload_task
  split
  · exact h
  · split
    · exact h
    · next fc2Id rest heq =>
        have hrest : rest.Nodup := by
          have := h.2
          rw [heq] at this
          exact this.of_cons
        dsimp only
        split
        · exact ⟨h.1, hrest⟩
        · exact ⟨h.1, hrest⟩

theorem nodup_updDl (s : Store) (id0 : String) (pd : ProgressData)
    (h : QueuesNodup s) :
    QueuesNodup (update_download_progress s id0 pd) := by
  unfold update_download_progress
  cases hl : lookupTask s.taskStatus id0 with
  | none => exact h
  | some t =>
      dsimp only
      split
      · split
        · exact h
        · next hnm =>
            split
            · exact ⟨h.1, nodup_append_singleton (by simpa using hnm) h.2⟩
            · exact h
      · split
        · exact h
        · split
          · exact h
          · split
            · exact h
            · exact h

theorem nodup_updUl (s : Store) (id0 : String) (pd : ProgressData)
    (h : QueuesNodup s) :
    QueuesNodup (update_upload_progress s id0 pd) := by
  unfold update_upload_progress
  cases hl : lookupTask s.taskStatus id0 with
  | none => exact h
  | some t =>
      dsimp only
      split
      · exact h
      · split
        · exact h
        · split
          · exact h
          · exact h

theorem nodup_setPath (s : Store) (id0 p : String) (h : QueuesNodup s) :
    QueuesNodup (set_download_local_path s id0 p) := by
  unfold set_download_local_path
  cases lookupTask s.taskStatus id0 with
  | none => exact h
  | some t => exact h

theorem nodup_delFile (s : Store) (id0 : String) (ex : String → Bool)
    (removeOk : Bool) (h : QueuesNodup s) :
    QueuesNodup (delete_local_file s id0 ex removeOk) := by
  unfold delete_local_file
  cases lookupTask s.taskStatus id0 with
  | none => exact h
  | some t =>
      dsimp only
      split
      · split
        · split
          · exact h
          · exact h
        · exact h
      · exact h

theorem nodup_resumeStep (st : Store) (fc2Id : String)
    (h : QueuesNodup st) : QueuesNodup (resumeStep st fc2Id) := by
  unfold resumeStep
  cases lookupTask st.taskStatus fc2Id with
  | none => exact h
  | some t =>
      dsimp only
      split
      · split
        · exact ⟨h.1, nodup_pushFront h.2⟩
        · exact ⟨nodup_pushFront h.1, h.2⟩
      · exact h

theorem nodup_resume (s : Store) (h : QueuesNodup s) :
    QueuesNodup (resume_paused_tasks s) := by
  unfold resume_paused_tasks
  exact foldl_inv QueuesNodup resumeStep
    (fun st a hst => nodup_resumeStep st a hst) _ s h

theorem nodup_resetStep (st : Store) (fc2Id : String)
    (h : QueuesNodup st) : QueuesNodup (resetStep st fc2Id) := by
  unfold resetStep
  cases lookupTask st.taskStatus fc2Id with
  | none => exact h
  | some t => exact ⟨nodup_pushFront h.1, h.2⟩

theorem nodup_resetFailed (s : Store) (h : QueuesNodup s) :
    QueuesNodup (reset_failed_tasks s) := by
  unfold reset_failed_tasks
  exact foldl_inv QueuesNodup resetStep
    (fun st a hst => nodup_resetStep st a hst) _ _ h

theorem nodup_scanMp4Step (dir : String) (st : ScanState) (f : String)
    (h : QueuesNodup st.store) : QueuesNodup (scanMp4Step dir st f).store := by
  unfold scanMp4Step
  split
  · dsimp only
    split
    · split
      · exact h
      · exact ⟨h.1, nodup_enqueue h.2⟩
    · exact h
  · exact h

theorem nodup_scanPartStep (dir : String) (st : ScanState) (f : String)
    (h : QueuesNodup st.store) :
    QueuesNodup (scanPartStep dir st f).store := by
  unfold scanPartStep
  split
  · dsimp only
    split
    · split
      · split
        · exact h
        · split
          · exact ⟨nodup_pushFront h.1, h.2⟩
          · exact h
      · exact h
    · exact h
  · exact h

theorem nodup_scanMissingStep (ex : String → Bool) (st : ScanState)
    (fc2Id : String) (h : QueuesNodup st.store) :
    QueuesNodup (scanMissingStep ex st fc2Id).store := by
  unfold scanMissingStep
  split
  · exact h
  · dsimp only
    split
    · split
      · exact h
      · split
        · exact ⟨nodup_pushFront h.1, h.2⟩
        · split
          · exact ⟨h.1, List.Nodup.erase _ h.2⟩
          · exact h
    · exact h

theorem nodup_scan (s : Store) (dir : String) (files : List String)
    (ex : String → Bool) (dirOk : Bool) (h : QueuesNodup s) :
    QueuesNodup (check_and_resume_downloads s dir files ex dirOk).store := by
  unfold check_and_resume_downloads
  split
  · dsimp only
    have h1 := foldl_inv (fun st : ScanState => QueuesNodup st.store)
      (scanMp4Step dir) (fun st a hst => nodup_scanMp4Step dir st a hst)
      files { store := s, deleted := [] } h
    have h2 := foldl_inv (fun st : ScanState => QueuesNodup st.store)
      (scanPartStep dir) (fun st a hst => nodup_scanPartStep dir st a hst)
      files _ h1
    exact foldl_inv (fun st : ScanState => QueuesNodup st.store)
      (scanMissingStep ex)
      (fun st a hst => nodup_scanMissingStep ex st a hst) _ _ h2
  · exact h

theorem nodup_step {s s' : Store} (h : Step s s') (hq : QueuesNodup s) :
    QueuesNodup s' := by
  cases h with
  | add info fs => exact nodup_add s info fs hq
  | nextDl => exact nodup_nextDl s hq
  | updDl id pd => exact nodup_updDl s id pd hq
  | setPath id p => exact nodup_setPath s id p hq
  | nextUl => exact nodup_nextUl s hq
  | updUl id pd => exact nodup_updUl s id pd hq
  | stop => exact hq
  | clearStop => exact hq
  | resume => exact nodup_resume s hq
  | resetFailed => exact nodup_resetFailed s hq
  | scan dir files ex dirOk => exact nodup_scan s dir files ex dirOk hq
  | resetAll => exact ⟨List.nodup_nil, List.nodup_nil⟩
  | delFile id ex removeOk => exact nodup_delFile s id ex removeOk hq

theorem procFreshOfSubset {s s' : Store}
    (h : ∀ id, id ∈ s'.processedIds → id ∈ s.processedIds) :
    ProcFresh s s' :=
  fun id hn hm => absurd (h id hm) hn

theorem proc_add (s : Store) (info : VideoInfo) (fs : String → Option Nat) :
    ProcFresh s (add_download_task s info fs) := by
  unfold add_download_task
  cases info.fc2Id with
  | none => exact procFreshOfSubset (fun _ h => h)
  | some fc2Id =>
      by_cases h0 : fc2Id = ""
      · simp only [h0]
        simpa using procFreshOfSubset (s := s) (fun _ h => h)
      · simp only [h0, if_false]
        split
        · exact procFreshOfSubset (fun _ h => List.mem_of_mem_erase h)
        · rcases addLocalBranch_cases s fc2Id (info.title.getD fc2Id) info fs
              (safeFilename (info.title.getD fc2Id)) with hb | hb | hb <;>
            rw [hb]
          · unfold addFinalSection
            dsimp only
            split
            · exact procFreshOfSubset (fun _ h => List.mem_of_mem_erase h)
            · exact procFreshOfSubset (fun _ h => h)
          · exact procFreshOfSubset (fun _ h => h)
          · exact procFreshOfSubset (fun _ h => List.mem_of_mem_erase h)

theorem proc_nextDl (s : Store) : ProcFresh s (get_next_download_task s).1 := by
  unfold get_next_download_task
  split
  · exact procFreshOfSubset (fun _ h => h)
  · split
    · exact procFreshOfSubset (fun _ h => h)
    · dsimp only
      split
      · exact procFreshOfSubset (fun _ h => h)
      · exact procFreshOfSubset (fun _ h => h)

theorem proc_nextUl (s : Store) : ProcFresh s (get_next_upload_task s).1 := by
  unfold get_next_upload_task
  split
  · exact procFreshOfSubset (fun _ h => h)
  · split
    · exact procFreshOfSubset (fun _ h => h)
    · dsimp only
      split
      · exact procFreshOfSubset (fun _ h => h)
      · exact procFreshOfSubset (fun _ h => h)

theorem proc_updDl (s : Store) (id0 : String) (pd : ProgressData) :
    ProcFresh s (update_download_progress s id0 pd) := by
  unfold update_download_progress
  cases hl : lookupTask s.taskStatus id0 with
  | none => exact procFreshOfSubset (fun _ h => h)
  | some t =>
      dsimp only
      split
      · split
        · exact procFreshOfSubset (fun _ h => h)
        · split
          · exact procFreshOfSubset (fun _ h => h)
          · exact procFreshOfSubset (fun _ h => h)
      · split
        · exact procFreshOfSubset (fun _ h => h)
        · split
          · next hsk =>
              intro id hn hm
              have hm' : id ∈ s.processedIds ∨ id = id0 := mem_procAdd.mp hm
              rcases hm' with hmem | rfl
              · exact absurd hmem hn
              · right; right
                simp [statusOf, lookup_set_self, mergeDl, hsk]
          · split
            · exact procFreshOfSubset (fun _ h => h)
            · exact procFreshOfSubset (fun _ h => h)

theorem proc_updUl (s : Store) (id0 : String) (pd : ProgressData) :
    ProcFresh s (update_upload_progress s id0 pd) := by
  unfold update_upload_progress
  cases hl : lookupTask s.taskStatus id0 with
  | none => exact procFreshOfSubset (fun _ h => h)
  | some t =>
      dsimp only
      split
      · intro id hn hm
        have hm' : id ∈ s.processedIds ∨ id = id0 := mem_procAdd.mp hm
        rcases hm' with hmem | rfl
        · exact absurd hmem hn
        · by_cases hf : pd.status = some "finished"
          · left
            simp [statusOf, lookup_set_self, hf]
          · right; left
            simp [statusOf, lookup_set_self, hf]
      · split
        · exact procFreshOfSubset (fun _ h => h)
        · split
          · exact procFreshOfSubset (fun _ h => h)
          · exact procFreshOfSubset (fun _ h => h)

theorem proc_setPath (s : Store) (id0 p : String) :
    ProcFresh s (set_download_local_path s id0 p) := by
  unfold set_download_local_path
  cases lookupTask s.taskStatus id0 with
  | none => exact procFreshOfSubset (fun _ h => h)
  | some t => exact procFreshOfSubset (fun _ h => h)

theorem proc_delFile (s : Store) (id0 : String) (ex : String → Bool)
    (removeOk : Bool) : ProcFresh s (delete_local_file s id0 ex removeOk) := by
  unfold delete_local_file
  cases lookupTask s.taskStatus id0 with
  | none => exact procFreshOfSubset (fun _ h => h)
  | some t =>
      dsimp only
      split
      · split
        · split
          · exact procFreshOfSubset (fun _ h => h)
          · exact procFreshOfSubset (fun _ h => h)
        · exact procFreshOfSubset (fun _ h => h)
      · exact procFreshOfSubset (fun _ h => h)

theorem proc_resume_eq (s : Store) :
    (resume_paused_tasks s).processedIds = s.processedIds := by
  unfold resume_paused_tasks
  refine foldl_inv (fun st => st.processedIds = s.processedIds) resumeStep
    (fun st a hst => ?_) _ s rfl
  unfold resumeStep
  cases lookupTask st.taskStatus a with
  | none => exact hst
  | some t =>
      dsimp only
      split
      · split
        · exact hst
        · exact hst
      · exact hst

theorem proc_resetFailed (s : Store) :
    ProcFresh s (reset_failed_tasks s) := by
  refine procFreshOfSubset ?_
  unfold reset_failed_tasks
  dsimp only
  refine foldl_inv
    (fun st : Store => ∀ id, id ∈ st.processedIds → id ∈ s.processedIds)
    resetStep (fun st a hst => ?_) _ _ ?_
  · unfold resetStep
    cases lookupTask st.taskStatus a with
    | none => exact hst
    | some t => exact hst
  · intro id h
    have : ∀ (l : List String) (p : List String),
        (∀ x, x ∈ p → x ∈ s.processedIds) →
        ∀ x, x ∈ l.foldl (fun acc i => acc.erase i) p → x ∈ s.processedIds := by
      intro l
      induction l with
      | nil => intro p hp x hx; exact hp x hx
      | cons a rest ih =>
          intro p hp x hx
          exact ih (p.erase a) (fun y hy => hp y (List.mem_of_mem_erase hy)) x hx
    exact this _ s.processedIds (fun _ hx => hx) id h

theorem proc_scanMp4Step (s : Store) (dir : String) (st : ScanState)
    (f : String)
    (hst : ∀ id, id ∈ st.store.processedIds → id ∈ s.processedIds) :
    ∀ id, id ∈ (scanMp4Step dir st f).store.processedIds →
      id ∈ s.processedIds := by
  unfold scanMp4Step
  split
  · dsimp only
    split
    · split
      · exact hst
      · intro id hm
        exact hst id (List.mem_of_mem_erase hm)
    · exact hst
  · exact hst

theorem proc_scanPartStep (s : Store) (dir : String) (st : ScanState)
    (f : String)
    (hst : ∀ id, id ∈ st.store.processedIds → id ∈ s.processedIds) :
    ∀ id, id ∈ (scanPartStep dir st f).store.processedIds →
      id ∈ s.processedIds := by
  unfold scanPartStep
  split
  · dsimp only
    split
    · split
      · split
        · exact hst
        · split
          · exact hst
          · exact hst
      · exact hst
    · exact hst
  · exact hst

theorem proc_scanMissingStep (s : Store) (ex : String → Bool)
    (st : ScanState) (fc2Id : String)
    (hst : ∀ id, id ∈ st.store.processedIds → id ∈ s.processedIds) :
    ∀ id, id ∈ (scanMissingStep ex st fc2Id).store.processedIds →
      id ∈ s.processedIds := by
  unfold scanMissingStep
  split
  · exact hst
  · dsimp only
    split
    · split
      · exact hst
      · split
        · exact hst
        · split
          · exact hst
          · exact hst
    · exact hst

theorem proc_scan (s : Store) (dir : String) (files : List String)
    (ex : String → Bool) (dirOk : Bool) :
    ProcFresh s (check_and_resume_downloads s dir files ex dirOk).store := by
  refine procFreshOfSubset ?_
  unfold check_and_resume_downloads
  split
  · dsimp only
    have P1 := foldl_inv
      (fun st : ScanState =>
        ∀ id, id ∈ st.store.processedIds → id ∈ s.processedIds)
      (scanMp4Step dir) (fun st a hst => proc_scanMp4Step s dir st a hst)
      files { store := s, deleted := [] } (fun _ h => h)
    have P2 := foldl_inv
      (fun st : ScanState =>
        ∀ id, id ∈ st.store.processedIds → id ∈ s.processedIds)
      (scanPartStep dir) (fun st a hst => proc_scanPartStep s dir st a hst)
      files _ P1
    exact foldl_inv
      (fun st : ScanState =>
        ∀ id, id ∈ st.store.processedIds → id ∈ s.processedIds)
      (scanMissingStep ex)
      (fun st a hst => proc_scanMissingStep s ex st a hst) _ _ P2
  · exact fun _ h => h

theorem proc_step {s s' : Store} (h : Step s s') : ProcFresh s s' := by
  cases h with
  | add info fs => exact proc_add s info fs
  | nextDl => exact proc_nextDl s
  | updDl id pd => exact proc_updDl s id pd
  | setPath id p => exact proc_setPath s id p
  | nextUl => exact proc_nextUl s
  | updUl id pd => exact proc_updUl s id pd
  | stop => exact procFreshOfSubset (fun _ h => h)
  | clearStop => exact procFreshOfSubset (fun _ h => h)
  | resume =>
      refine procFreshOfSubset ?_
      rw [proc_resume_eq]
      exact fun _ h => h
  | resetFailed => exact proc_resetFailed s
  | scan dir files ex dirOk => exact proc_scan s dir files ex dirOk
  | resetAll => exact procFreshOfSubset (fun _ h => by simp [reset_state_async, initialStore] at h)
  | delFile id ex removeOk => exact proc_delFile s id ex removeOk

/-- Claim C1, counterexample: the already-fetched fast path of
`add_download_task` is one reachable step from the fresh store and puts
the TaskID into the upload queue with status `completed`, not
`pending_upload`, so queue membership and status disagree. -/
theorem C1_counterexample :
    Reachable c1State ∧ idX ∈ c1State.uploadQueue ∧
      ¬ statusOf c1State idX = some "pending_upload" :=
  ⟨Relation.ReflTransGen.single (Step.add initialStore infoX fsEverywhere),
   by decide, by decide⟩

/-- Claim C1, amended: every operation appends an id to the download queue
only with status `pending_download`, and to the upload queue only with
status `pending_upload` or `completed` (the fast path and the Reconciler
append with `completed`). -/
theorem C1_queue_append_status :
    ∀ s s' : Store, Step s s' →
      (∀ id, id ∉ s.downloadQueue → id ∈ s'.downloadQueue →
         statusOf s' id = some "pending_download") ∧
      (∀ id, id ∉ s.uploadQueue → id ∈ s'.uploadQueue →
         statusOf s' id = some "pending_upload" ∨
         statusOf s' id = some "completed") := by
  intro s s' h
  cases h with
  | add info fs => exact fresh_add s info fs
  | nextDl => exact fresh_nextDl s
  | updDl id pd => exact fresh_updDl s id pd
  | setPath id p => exact fresh_setPath s id p
  | nextUl => exact fresh_nextUl s
  | updUl id pd => exact fresh_updUl s id pd
  | stop => exact fresh_stop s
  | clearStop => exact fresh_clearStop s
  | resume => exact fresh_resume s
  | resetFailed => exact fresh_resetFailed s
  | scan dir files ex dirOk => exact fresh_scan s dir files ex dirOk
  | resetAll => exact fresh_resetAll s
  | delFile id ex removeOk => exact fresh_delFile s id ex removeOk

/-- Witness for `C1_queue_append_status` at the fast-path step. -/
theorem C1_queue_append_status_witness :
    statusOf c1State idX = some "pending_upload" ∨
    statusOf c1State idX = some "completed" :=
  (C1_queue_append_status initialStore c1State
     (Step.add initialStore infoX fsEverywhere)).2 idX (by decide) (by decide)

/-- Claim C2, counterexample: submit on an empty filesystem (the id enters
the download queue), then submit again once the upload destination holds
the file — the fast path appends the id to the upload queue without
removing it from the download queue, so it sits in both queues at once in
a reachable state. -/
theorem C2_counterexample :
    Reachable c2State ∧ idX ∈ c2State.downloadQueue ∧
      idX ∈ c2State.uploadQueue :=
  ⟨Relation.ReflTransGen.tail
     (Relation.ReflTransGen.single (Step.add initialStore infoX fsEmpty))
     (Step.add chain1 infoX fsEverywhere),
   by decide, by decide⟩

/-- Claim C2, amended: every append to a queue is guarded by a membership
test, so each individual queue of a reachable store is duplicate-free —
but the same TaskID may appear in both queues at once. -/
theorem C2_per_queue_nodup :
    ∀ s : Store, Reachable s →
      s.downloadQueue.Nodup ∧ s.uploadQueue.Nodup := by
  intro s h
  unfold Reachable at h
  induction h with
  | refl => exact ⟨List.nodup_nil, List.nodup_nil⟩
  | tail hab hbc ih => exact nodup_step hbc ih

/-- Witness for `C2_per_queue_nodup` at the double-submission state. -/
theorem C2_per_queue_nodup_witness :
    c2State.downloadQueue.Nodup ∧ c2State.uploadQueue.Nodup :=
  C2_per_queue_nodup c2State
    (Relation.ReflTransGen.tail
       (Relation.ReflTransGen.single (Step.add initialStore infoX fsEmpty))
       (Step.add chain1 infoX fsEverywhere))

/-- Claim C3, counterexample: a download-side `skipped` progress report
inserts the id into the processed-set while the resulting status is
`skipped` — neither `completed` nor `skipped_upload` — in a reachable
state. -/
theorem C3_counterexample :
    Reachable c3State ∧ idX ∈ c3State.processedIds ∧
      statusOf c3State idX = some "skipped" ∧
      ¬ statusOf c3State idX = some "completed" ∧
      ¬ statusOf c3State idX = some "skipped_upload" :=
  ⟨Relation.ReflTransGen.tail
     (Relation.ReflTransGen.single (Step.add initialStore infoX fsEmpty))
     (Step.updDl chain1 idX pdSkipped),
   by decide, by decide, by decide, by decide⟩

/-- Claim C3, amended: an operation inserts an id into the processed-set
only when the resulting status is `completed`, `skipped_upload`, or
`skipped` (the download-side skipped report also inserts); no failure
status inserts. -/
theorem C3_processed_insertion_status :
    ∀ s s' : Store, Step s s' → ∀ id, id ∉ s.processedIds →
      id ∈ s'.processedIds →
      statusOf s' id = some "completed" ∨
      statusOf s' id = some "skipped_upload" ∨
      statusOf s' id = some "skipped" :=
  fun _ _ h => proc_step h

/-- Witness for `C3_processed_insertion_status` at the skipped report. -/
theorem C3_processed_insertion_status_witness :
    statusOf c3State idX = some "completed" ∨
    statusOf c3State idX = some "skipped_upload" ∨
    statusOf c3State idX = some "skipped" :=
  C3_processed_insertion_status chain1 c3State
    (Step.updDl chain1 idX pdSkipped) idX (by decide) (by decide)

theorem statusOf_some {s : Store} {id x : String}
    (h : statusOf s id = some x) :
    ∃ t, lookupTask s.taskStatus id = some t ∧ t.status = x := by
  unfold statusOf at h
  cases hl : lookupTask s.taskStatus id with
  | none => rw [hl] at h; simp at h
  | some t =>
      rw [hl] at h
      simp at h
      exact ⟨t, rfl, h⟩

theorem add_unfold_noUpload (s : Store) (info : VideoInfo)
    (fs : String → Option Nat) (id : String) (hid : info.fc2Id = some id)
    (hne : ¬ id = "")
    (hup : fileOk fs ("uploads/" ++ uploadFolderName id ++ "/" ++
      safeFilename (info.title.getD id)) = false) :
    add_download_task s info fs =
      match addLocalBranch s id (info.title.getD id) info fs
              (safeFilename (info.title.getD id)) with
      | some s' => s'
      | none => addFinalSection s id (info.title.getD id) info := by
  unfold add_download_task
  rw [hid]
  dsimp only
  rw [if_neg hne, if_neg (by simp [hup])]

theorem addLocalBranch_none_of_noFile (s : Store) (id title : String)
    (info : VideoInfo) (fs : String → Option Nat) (sf : String)
    (hlocal : fileOk fs ("downloads/" ++ sf) = false) :
    addLocalBranch s id title info fs sf = none := by
  unfold addLocalBranch
  dsimp only
  rw [if_neg (by simp [hlocal])]

theorem addLocalBranch_none_of_inflight (s : Store) (id title : String)
    (info : VideoInfo) (fs : String → Option Nat) (sf : String)
    (t : TaskRec) (hl : lookupTask s.taskStatus id = some t)
    (ht : t.status ∈ ["pending_download", "downloading", "paused", "error",
                      "failed_download", "failed_upload"]) :
    addLocalBranch s id title info fs sf = none := by
  have hA1 : ¬ (t.status ∈ ["completed", "pending_upload", "uploading",
                            "skipped_upload"]) := by
    simp only [List.mem_cons, List.not_mem_nil, or_false] at ht ⊢
    rcases ht with h | h | h | h | h | h <;> rw [h] <;> decide
  unfold addLocalBranch
  dsimp only
  split
  · split
    · rw [hl]
      dsimp only
      rw [if_neg hA1, if_pos ht]
    · rfl
  · rfl

theorem addLocalBranch_skip_of_handled (s : Store) (id title : String)
    (info : VideoInfo) (fs : String → Option Nat) (sf : String)
    (t : TaskRec) (hl : lookupTask s.taskStatus id = some t)
    (ht : t.status ∈ ["completed", "pending_upload", "uploading",
                      "skipped_upload"])
    (hlocal : fileOk fs ("downloads/" ++ sf) = true)
    (hex : extract_fc2_id_from_filename sf = some id) :
    addLocalBranch s id title info fs sf = some s := by
  unfold addLocalBranch
  dsimp only
  rw [if_pos hlocal, if_pos hex, hl]
  dsimp only
  rw [if_pos ht]

theorem addFinalSection_skip (s : Store) (id title : String)
    (info : VideoInfo) (t : TaskRec)
    (hl : lookupTask s.taskStatus id = some t)
    (ht : t.status ∈ ["pending_download", "downloading"]) :
    addFinalSection s id title info = s := by
  unfold addFinalSection
  dsimp only
  rw [hl]
  dsimp only
  rw [if_neg (by simp [ht])]

theorem addFinalSection_reset_of_some (s : Store) (id title : String)
    (info : VideoInfo) (t : TaskRec)
    (hl : lookupTask s.taskStatus id = some t)
    (ht : ¬ t.status ∈ ["pending_download", "downloading"]) :
    addFinalSection s id title info =
      { s with
          taskStatus := setTask s.taskStatus id
            { status := "pending_download", title := title, url := info.url,
              addedDate := info.addedDateStr, rating := info.rating,
              downloadProgress := 0, uploadProgress := 0,
              localPath := none, errorMessage := none },
          processedIds := s.processedIds.erase id,
          downloadQueue := enqueue s.downloadQueue id } := by
  unfold addFinalSection
  dsimp only
  rw [hl]
  dsimp only
  rw [if_pos (by simp [ht])]

theorem addFinalSection_reset_of_none (s : Store) (id title : String)
    (info : VideoInfo) (hl : lookupTask s.taskStatus id = none) :
    addFinalSection s id title info =
      { s with
          taskStatus := setTask s.taskStatus id
            { status := "pending_download", title := title, url := info.url,
              addedDate := info.addedDateStr, rating := info.rating,
              downloadProgress := 0, uploadProgress := 0,
              localPath := none, errorMessage := none },
          processedIds := s.processedIds.erase id,
          downloadQueue := enqueue s.downloadQueue id } := by
  unfold addFinalSection
  dsimp only
  rw [hl]
  rfl

/-- Claim C4, counterexample: re-submitting a completed (and processed)
TaskID when its file is no longer on disk is not a no-op — the store
changes (the task is reset and re-enqueued). -/
theorem C4_counterexample :
    Reachable chain5 ∧ statusOf chain5 idX = some "completed" ∧
      ¬ add_download_task chain5 infoX fsEmpty = chain5 :=
  ⟨Relation.ReflTransGen.tail
     (Relation.ReflTransGen.tail
        (Relation.ReflTransGen.tail
           (Relation.ReflTransGen.tail
              (Relation.ReflTransGen.single
                 (Step.add initialStore infoX fsEmpty))
              (Step.nextDl chain1))
           (Step.updDl chain2 idX pdFinishedWithPath))
        (Step.nextUl chain3))
     (Step.updUl chain4 idX pdFinishedBare),
   by decide, by decide⟩

/-- Claim C4, amended: with no complete file at the upload destination,
re-submission is a no-op while the task is pending or downloading, and
while a completed/pending-upload/uploading/skipped-upload task's
downloaded file still exists (with the id derivable from its name); but
re-submitting a completed task whose file is gone resets it to
`pending_download`, re-enqueues it and removes it from the
processed-set. -/
theorem C4_resub_noop_conditions :
    ∀ (s : Store) (info : VideoInfo) (fs : String → Option Nat) (id : String),
      info.fc2Id = some id → ¬ id = "" →
      fileOk fs ("uploads/" ++ uploadFolderName id ++ "/" ++
        safeFilename (info.title.getD id)) = false →
      ((statusOf s id = some "pending_download" ∨
          statusOf s id = some "downloading") →
        add_download_task s info fs = s) ∧
      ((statusOf s id = some "completed" ∨
          statusOf s id = some "pending_upload" ∨
          statusOf s id = some "uploading" ∨
          statusOf s id = some "skipped_upload") →
        fileOk fs ("downloads/" ++ safeFilename (info.title.getD id)) = true →
        extract_fc2_id_from_filename (safeFilename (info.title.getD id)) =
          some id →
        add_download_task s info fs = s) ∧
      (statusOf s id = some "completed" →
        fileOk fs ("downloads/" ++ safeFilename (info.title.getD id)) = false →
        statusOf (add_download_task s info fs) id = some "pending_download" ∧
        id ∈ (add_download_task s info fs).downloadQueue ∧
        (add_download_task s info fs).processedIds =
          s.processedIds.erase id) := by
  intro s info fs id hid hne hup
  have hmain := add_unfold_noUpload s info fs id hid hne hup
  refine ⟨?_, ?_, ?_⟩
  · intro hst
    rcases hst with hst | hst <;>
    · obtain ⟨t, hl, ht⟩ := statusOf_some hst
      rw [hmain, addLocalBranch_none_of_inflight s id (info.title.getD id)
          info fs _ t hl (by rw [ht]; decide)]
      exact addFinalSection_skip s id (info.title.getD id) info t hl
        (by rw [ht]; decide)
  · intro hst hlocal hex
    rcases hst with hst | hst | hst | hst <;>
    · obtain ⟨t, hl, ht⟩ := statusOf_some hst
      rw [hmain, addLocalBranch_skip_of_handled s id (info.title.getD id)
          info fs _ t hl (by rw [ht]; decide) hlocal hex]
  · intro hst hlocal
    obtain ⟨t, hl, ht⟩ := statusOf_some hst
    rw [hmain, addLocalBranch_none_of_noFile s id (info.title.getD id)
        info fs _ hlocal]
    dsimp only
    rw [addFinalSection_reset_of_some s id (info.title.getD id) info t hl
        (by rw [ht]; decide)]
    refine ⟨?_, mem_enqueue.mpr (Or.inr rfl), rfl⟩
    simp [statusOf, lookup_set_self]

/-- Witness for `C4_resub_noop_conditions`: re-submitting the completed
task of `chain5` with its file gone resets and re-enqueues it. -/
theorem C4_resub_noop_conditions_witness :
    statusOf c4After idX = some "pending_download" ∧
    idX ∈ c4After.downloadQueue ∧
    c4After.processedIds = chain5.processedIds.erase idX :=
  (C4_resub_noop_conditions chain5 infoX fsEmpty idX (by decide) (by decide)
     (by decide)).2.2 (by decide) (by decide)

/-- Claim C5, counterexample: the TaskID is in the processed-set of the
reachable state `chain5`; an ordinary re-submission (no reset involved)
removes it from the processed-set and re-enqueues the task. -/
theorem C5_counterexample :
    Reachable chain5 ∧ idX ∈ chain5.processedIds ∧
      idX ∉ c4After.processedIds ∧ idX ∈ c4After.downloadQueue :=
  ⟨Relation.ReflTransGen.tail
     (Relation.ReflTransGen.tail
        (Relation.ReflTransGen.tail
           (Relation.ReflTransGen.tail
              (Relation.ReflTransGen.single
                 (Step.add initialStore infoX fsEmpty))
              (Step.nextDl chain1))
           (Step.updDl chain2 idX pdFinishedWithPath))
        (Step.nextUl chain3))
     (Step.updUl chain4 idX pdFinishedBare),
   by decide, by decide, by decide⟩

/-- Claim C5, amended: ordinary re-submission of a processed id (with no
matching files on disk and the task not currently pending/downloading)
removes the id from the processed-set and re-enqueues the task, so the
processed-set is not monotone under `EnqueueDownload`. -/
theorem C5_resubmission_unprocesses :
    ∀ (s : Store) (info : VideoInfo) (fs : String → Option Nat) (id : String),
      info.fc2Id = some id → ¬ id = "" →
      id ∈ s.processedIds →
      ¬ statusOf s id = some "pending_download" →
      ¬ statusOf s id = some "downloading" →
      fileOk fs ("uploads/" ++ uploadFolderName id ++ "/" ++
        safeFilename (info.title.getD id)) = false →
      fileOk fs ("downloads/" ++ safeFilename (info.title.getD id)) = false →
      (add_download_task s info fs).processedIds =
        s.processedIds.erase id ∧
      id ∈ (add_download_task s info fs).downloadQueue := by
  intro s info fs id hid hne _hproc hnpd hndl hup hlocal
  have hmain := add_unfold_noUpload s info fs id hid hne hup
  rw [hmain, addLocalBranch_none_of_noFile s id (info.title.getD id)
      info fs _ hlocal]
  dsimp only
  cases hl : lookupTask s.taskStatus id with
  | none =>
      rw [addFinalSection_reset_of_none s id (info.title.getD id) info hl]
      exact ⟨rfl, mem_enqueue.mpr (Or.inr rfl)⟩
  | some t =>
      have ht : ¬ t.status ∈ ["pending_download", "downloading"] := by
        intro hmem
        simp only [List.mem_cons, List.not_mem_nil, or_false] at hmem
        rcases hmem with h | h
        · exact hnpd (by simp [statusOf, hl, h])
        · exact hndl (by simp [statusOf, hl, h])
      rw [addFinalSection_reset_of_some s id (info.title.getD id) info t hl ht]
      exact ⟨rfl, mem_enqueue.mpr (Or.inr rfl)⟩

/-- Witness for `C5_resubmission_unprocesses` at the completed, processed
state `chain5`. -/
theorem C5_resubmission_unprocesses_witness :
    c4After.processedIds = chain5.processedIds.erase idX ∧
    idX ∈ c4After.downloadQueue :=
  C5_resubmission_unprocesses chain5 infoX fsEmpty idX (by decide)
    (by decide) (by decide) (by decide) (by decide) (by decide) (by decide)

/-- Claim C6, counterexample: a resumed fetch (10-byte `.part`, expected
total 110) whose stream ends after only 50 more bytes returns failure —
but the partial data has already been renamed to the final name, so no
`.part` file remains on disk for a later resume. -/
theorem C6_counterexample :
    0 < computedTotal (c6Input.partSize.getD 0) c6Input.contentRange
        c6Input.contentLength ∧
    c6Input.partSize.getD 0 + sumUntilZero c6Input.chunks ≠
      computedTotal (c6Input.partSize.getD 0) c6Input.contentRange
        c6Input.contentLength ∧
    (download_video c6Input).ok = false ∧
    (download_video c6Input).partFile = none ∧
    (download_video c6Input).finalFile = some 60 := by
  decide

/-- Claim C6, amended: when the stream ends without a transport error and
the bytes written differ from a known expected total, `download_video`
returns failure, but the `.part` file has already been renamed to the
final output name — the partial bytes persist under the final name and
the `.part` file is gone. -/
theorem C6_size_mismatch_renames :
    ∀ inp : DlInput, inp.dirOk = true →
      (inp.statusCode = 200 ∨ inp.statusCode = 206) →
      inp.interruptAfter = none →
      0 < computedTotal (inp.partSize.getD 0) inp.contentRange
        inp.contentLength →
      inp.partSize.getD 0 + sumUntilZero inp.chunks ≠
        computedTotal (inp.partSize.getD 0) inp.contentRange
          inp.contentLength →
      download_video inp =
        { ok := false, partFile := none,
          finalFile := some (inp.partSize.getD 0 +
                             sumUntilZero inp.chunks) } := by
  intro inp h1 h2 h3 h4 h5
  unfold download_video
  rw [if_neg (fun hc => hc h1), if_neg (fun hc => hc h2), h3]
  dsimp only
  rw [if_pos ⟨h4, h5⟩]

/-- Witness for `C6_size_mismatch_renames` at the short resumed fetch. -/
theorem C6_size_mismatch_renames_witness :
    download_video c6Input =
      { ok := false, partFile := none,
        finalFile := some (c6Input.partSize.getD 0 +
                           sumUntilZero c6Input.chunks) } :=
  C6_size_mismatch_renames c6Input (by decide) (by decide) (by decide)
    (by decide) (by decide)

theorem foldl_inv_mem {α σ : Type} (P : σ → Prop) (f : σ → α → σ) :
    ∀ l : List α, (∀ s a, a ∈ l → P s → P (f s a)) →
      ∀ s, P s → P (l.foldl f s) := by
  intro l
  induction l with
  | nil =>
      intro _ s hs
      simpa using hs
  | cons a rest ih =>
      intro hstep s hs
      exact ih (fun s' b hb hp => hstep s' b (List.mem_cons_of_mem a hb) hp)
        (f s a) (hstep s a (List.mem_cons_self a rest) hs)

theorem string_append_left_cancel {a b c : String} (h : a ++ b = a ++ c) :
    b = c := by
  obtain ⟨da⟩ := a
  obtain ⟨db⟩ := b
  obtain ⟨dc⟩ := c
  have hd : da ++ db = da ++ dc := by
    have h2 : String.mk (da ++ db) = String.mk (da ++ dc) := h
    exact congrArg String.data h2
  have := List.append_cancel_left hd
  rw [this]

theorem c7_mp4_step (dir j : String) (p : String) (st : ScanState)
    (g : String)
    (hg : strEndsWith (strLower g) ".mp4" = true →
          ¬ extract_fc2_id_from_filename g = some j)
    (h : p ∉ st.deleted ∧ lookupTask st.store.taskStatus j = none) :
    p ∉ (scanMp4Step dir st g).deleted ∧
    lookupTask (scanMp4Step dir st g).store.taskStatus j = none := by
  unfold scanMp4Step
  split
  · next hmp4 =>
      dsimp only
      split
      · next j' heq =>
          split
          · exact h
          · refine ⟨h.1, ?_⟩
            have hne : j ≠ j' := by
              intro he
              exact hg hmp4 (by rw [he]; exact heq)
            rw [lookup_set_ne _ _ _ _ hne]
            exact h.2
      · exact h
  · exact h

theorem c7_part_step (dir f j : String) (st : ScanState) (g : String)
    (hpart : extract_fc2_id_from_filename (strDropRight f 5) = some j)
    (h : (dir ++ "/" ++ f) ∉ st.deleted ∧
         lookupTask st.store.taskStatus j = none) :
    (dir ++ "/" ++ f) ∉ (scanPartStep dir st g).deleted ∧
    lookupTask (scanPartStep dir st g).store.taskStatus j = none := by
  unfold scanPartStep
  split
  · dsimp only
    split
    · next j' heq =>
        split
        · next t hlt =>
            split
            · refine ⟨?_, h.2⟩
              intro hmem
              rcases List.mem_append.mp hmem with hin | hin
              · exact h.1 hin
              · rw [List.mem_singleton] at hin
                have hfg : f = g := string_append_left_cancel hin
                have hjj : j = j' := by
                  rw [← hfg] at heq
                  rw [hpart] at heq
                  exact (Option.some.injEq _ _).mp heq
                have h2 := h.2
                rw [hjj, hlt] at h2
                exact Option.noConfusion h2
            · split
              · refine ⟨h.1, ?_⟩
                have hne : j ≠ j' := by
                  intro he
                  have h2 := h.2
                  rw [he, hlt] at h2
                  exact Option.noConfusion h2
                rw [lookup_set_ne _ _ _ _ hne]
                exact h.2
              · exact h
        · exact h
    · next heq =>
        refine ⟨?_, h.2⟩
        intro hmem
        rcases List.mem_append.mp hmem with hin | hin
        · exact h.1 hin
        · rw [List.mem_singleton] at hin
          have hfg : f = g := string_append_left_cancel hin
          rw [← hfg, hpart] at heq
          exact Option.noConfusion heq
  · exact h

theorem c7_missing_step (ex : String → Bool) (p j : String) (st : ScanState)
    (a : String)
    (h : p ∉ st.deleted ∧ lookupTask st.store.taskStatus j = none) :
    p ∉ (scanMissingStep ex st a).deleted ∧
    lookupTask (scanMissingStep ex st a).store.taskStatus j = none := by
  unfold scanMissingStep
  split
  · exact h
  · next t hlt =>
      have hne : j ≠ a := by
        intro he
        have h2 := h.2
        rw [he, hlt] at h2
        exact Option.noConfusion h2
      dsimp only
      split
      · split
        · exact h
        · split
          · refine ⟨h.1, ?_⟩
            rw [lookup_set_ne _ _ _ _ hne]
            exact h.2
          · split
            · refine ⟨h.1, ?_⟩
              rw [lookup_set_ne _ _ _ _ hne]
              exact h.2
            · exact h
      · exact h

/-- Claim C7, counterexample: a `.part` file whose TaskID `7654321` is
derivable from the filename but absent from the registry is NOT deleted by
the Reconciler, and no task is created either — the whole scan is a
no-op on the store and deletes nothing. -/
theorem C7_counterexample :
    extract_fc2_id_from_filename (strDropRight c7File 5) = some "7654321" ∧
    lookupTask initialStore.taskStatus "7654321" = none ∧
    c7Scan.deleted = [] ∧ c7Scan.store = initialStore := by
  decide

/-- Claim C7, amended: a `.part` file whose owning TaskID is derivable
from its name but absent from the registry is left in place by the
Reconciler (only `.part` files whose id cannot be derived are deleted),
and no task is created for it — provided no completed `.mp4` file in the
directory carries the same id. -/
theorem C7_orphan_part_kept :
    ∀ (s : Store) (dir : String) (files : List String) (ex : String → Bool)
      (f j : String),
      f ∈ files →
      strEndsWith (strLower f) ".part" = true →
      extract_fc2_id_from_filename (strDropRight f 5) = some j →
      lookupTask s.taskStatus j = none →
      (∀ g, g ∈ files → strEndsWith (strLower g) ".mp4" = true →
        ¬ extract_fc2_id_from_filename g = some j) →
      (dir ++ "/" ++ f) ∉
        (check_and_resume_downloads s dir files ex true).deleted ∧
      lookupTask
        (check_and_resume_downloads s dir files ex true).store.taskStatus
        j = none := by
  intro s dir files ex f j _hf _hfp hpart hreg hmp4
  unfold check_and_resume_downloads
  rw [if_pos rfl]
  dsimp only
  have h1 := foldl_inv_mem
    (fun st : ScanState => (dir ++ "/" ++ f) ∉ st.deleted ∧
      lookupTask st.store.taskStatus j = none)
    (scanMp4Step dir) files
    (fun st g hg hp =>
      c7_mp4_step dir j (dir ++ "/" ++ f) st g (fun hgm => hmp4 g hg hgm) hp)
    { store := s, deleted := [] } ⟨by simp, hreg⟩
  have h2 := foldl_inv
    (fun st : ScanState => (dir ++ "/" ++ f) ∉ st.deleted ∧
      lookupTask st.store.taskStatus j = none)
    (scanPartStep dir)
    (fun st g hp => c7_part_step dir f j st g hpart hp) files _ h1
  exact foldl_inv
    (fun st : ScanState => (dir ++ "/" ++ f) ∉ st.deleted ∧
      lookupTask st.store.taskStatus j = none)
    (scanMissingStep ex)
    (fun st a hp => c7_missing_step ex (dir ++ "/" ++ f) j st a hp) _ _ h2

/-- Witness for `C7_orphan_part_kept` at the single-orphan directory. -/
theorem C7_orphan_part_kept_witness :
    ("downloads" ++ "/" ++ c7File) ∉ c7Scan.deleted ∧
    lookupTask c7Scan.store.taskStatus "7654321" = none :=
  C7_orphan_part_kept initialStore "downloads" [c7File] exNone c7File
    "7654321" (by decide) (by decide) (by decide) (by decide)
    (fun g hg hgm => by
      rw [List.mem_singleton] at hg
      rw [hg] at hgm
      exact absurd hgm (by decide))

theorem storeFileLoop_run (fuel : Nat) :
    ∀ r : Nat, r ≤ fuel → storeFileLoop fuel r = r := by
  induction fuel with
  | zero =>
      intro r h
      have : r = 0 := Nat.le_zero.mp h
      rw [this]
      rfl
  | succ n ih =>
      intro r h
      cases r with
      | zero => rfl
      | succ m =>
          show min 8192 (m + 1) + storeFileLoop n (m + 1 - min 8192 (m + 1)) =
            m + 1
          have h2 : m + 1 - min 8192 (m + 1) ≤ n := by omega
          rw [ih _ h2]
          omega

/-- Claim C8, counterexample: the fast path leaves the id in the upload
queue with a known local path; a later `finished` report then changes
nothing but the merged fields — the status becomes the raw `finished`
string, not `pending_upload` (and not `error`). -/
theorem C8_counterexample :
    Reachable c1State ∧
    lookupTask c1State.taskStatus idX = some c1TaskRec ∧
    localPathTruthy c1TaskRec.localPath = true ∧
    statusOf c8After idX = some "finished" ∧
    ¬ statusOf c8After idX = some "pending_upload" ∧
    ¬ statusOf c8After idX = some "error" :=
  ⟨Relation.ReflTransGen.single (Step.add initialStore infoX fsEverywhere),
   by decide, by decide, by decide, by decide, by decide⟩

/-- Claim C8, amended: a `finished` report for a registered task whose id
is NOT already in the upload queue sets `pending_upload` and appends the
id to the upload queue when the merged local path is known, and sets
`error` when it is not. -/
theorem C8_finished_dispatch :
    ∀ (s : Store) (id : String) (pd : ProgressData) (t : TaskRec),
      lookupTask s.taskStatus id = some t →
      pd.status = some "finished" →
      id ∉ s.uploadQueue →
      (localPathTruthy (mergeDl t pd).localPath = true →
        statusOf (update_download_progress s id pd) id =
          some "pending_upload" ∧
        (update_download_progress s id pd).uploadQueue =
          s.uploadQueue ++ [id]) ∧
      (localPathTruthy (mergeDl t pd).localPath = false →
        statusOf (update_download_progress s id pd) id = some "error") := by
  intro s id pd t hl hf hnq
  unfold update_download_progress
  rw [hl]
  dsimp only
  rw [if_pos hf, if_neg hnq]
  constructor
  · intro htr
    rw [if_pos htr]
    exact ⟨by simp [statusOf, lookup_set_self], rfl⟩
  · intro hfa
    rw [if_neg (by simp [hfa])]
    simp [statusOf, lookup_set_self]

/-- Witness for `C8_finished_dispatch`: a checked-out download reported
finished with its local path moves to `pending_upload` and is queued. -/
theorem C8_finished_dispatch_witness :
    statusOf (update_download_progress w8Store idX pdFinishedWithPath) idX =
      some "pending_upload" ∧
    (update_download_progress w8Store idX pdFinishedWithPath).uploadQueue =
      w8Store.uploadQueue ++ [idX] :=
  (C8_finished_dispatch w8Store idX pdFinishedWithPath w8TaskRec (by decide)
     (by decide) (by decide)).1 (by decide)

/-- Claim C9, counterexample: the local file exists but its name ends in
`.part`; the remote store holds a strictly smaller object of the same name
at the relay destination, yet the relay skips (success, nothing stored)
instead of overwriting. -/
theorem C9_counterexample :
    c9Input.remote "/Adult/FC2-PPV-120/FC2-PPV-1234567 x.mp4.part" =
      some 50 ∧
    50 < c9Input.localSize ∧
    c9Input.localExists = true ∧
    upload_to_server "downloads/FC2-PPV-1234567 x.mp4.part"
      "FC2-PPV-1234567" c9Input =
      { ok := true, skipped := true, stored := none } := by
  decide

/-- Claim C9, amended: for an existing local file whose name does not end
in `.part`, with the remote holding an object of the same name at the
derived destination: remote size ≥ local size ⇒ success with skipped and
no transfer; remote size < local size ⇒ the local file's bytes are stored
over the remote object. -/
theorem C9_duplicate_policy :
    ∀ (local_file_path video_title : String) (inp : UpInput)
      (prefix0 : String) (rsize : Nat),
      ¬ local_file_path = "" → inp.localExists = true →
      strEndsWith local_file_path ".part" = false →
      extract_fc2_head video_title = some prefix0 →
      inp.dirOk = true → inp.transferOk = true →
      inp.remote (smb_base_path ++ "/" ++
        (strDropRight prefix0 3 ++ (strTake (strTakeRight prefix0 3) 2 ++ "0"))
        ++ "/" ++ pathBasename local_file_path) = some rsize →
      ((inp.localSize ≤ rsize →
         upload_to_server local_file_path video_title inp =
           { ok := true, skipped := true, stored := none }) ∧
       (rsize < inp.localSize →
         upload_to_server local_file_path video_title inp =
           { ok := true, skipped := false,
             stored := some (smb_base_path ++ "/" ++
               (strDropRight prefix0 3 ++
                (strTake (strTakeRight prefix0 3) 2 ++ "0")) ++ "/" ++
               pathBasename local_file_path, inp.localSize) })) := by
  intro p title inp prefix0 rsize hne hex hpart hhead hdir htr hrem
  unfold upload_to_server
  rw [if_neg (by simp [hne, hex]), if_neg (by simp [hpart]), hhead]
  dsimp only
  rw [if_neg (by simp [hdir]), hrem]
  dsimp only
  constructor
  · intro hge
    rw [if_pos hge]
  · intro hlt
    rw [if_neg (by omega), if_pos htr,
      storeFileLoop_run inp.localSize inp.localSize (Nat.le_refl _)]

/-- Witness for `C9_duplicate_policy`: a 100-byte `.mp4` local file
overwrites a 50-byte remote duplicate. -/
theorem C9_duplicate_policy_witness :
    upload_to_server "downloads/FC2-PPV-1234567 x.mp4" "FC2-PPV-1234567"
      w9Input =
      { ok := true, skipped := false,
        stored := some ("/Adult/FC2-PPV-120/FC2-PPV-1234567 x.mp4", 100) } :=
  (C9_duplicate_policy "downloads/FC2-PPV-1234567 x.mp4" "FC2-PPV-1234567"
     w9Input "FC2-PPV-123" 50 (by decide) (by decide) (by decide) (by decide)
     (by decide) (by decide) (by decide)).2 (by decide)

/-- Claim C10: a submission whose `fc2_id` is missing or empty leaves the
whole store unchanged — registry, both queues, processed-set and stop
flag are exactly as before the call. -/
theorem C10_empty_id_noop :
    ∀ (s : Store) (info : VideoInfo) (fs : String → Option Nat),
      info.fc2Id = none ∨ info.fc2Id = some "" →
      add_download_task s info fs = s := by
  intro s info fs h
  unfold add_download_task
  rcases h with h | h
  · rw [h]
  · rw [h]
    dsimp only
    rw [if_pos rfl]

/-- Witness for `C10_empty_id_noop` on a populated store. -/
theorem C10_empty_id_noop_witness :
    add_download_task chain1 infoNone fsEverywhere = chain1 :=
  C10_empty_id_noop chain1 infoNone fsEverywhere (Or.inl rfl)
